import Mathlib

/-!
Verification of the facetime_v5 SFU against its specification.

This file gives a shallow embedding, in Lean, of the parts of the source
relevant to the checked claims:
  - the control-channel wire codec (src/shared/src/tcp_command.rs,
    tcp_command_id.rs),
  - the handshake username validation (src/server/src/tcp_handler.rs,
    src/shared/src/lib.rs),
  - the room / join / leave command handlers
    (src/server/src/tcp_command_handler.rs),
  - the datagram relay fast path and rate limiter
    (src/server/src/udp_handler.rs),
  - the client delta codec, fragment reassembly and heartbeat path
    (src/client/src/udp_handler.rs).

Bytes are modelled as natural numbers (real byte streams satisfy b < 256;
theorems that need this carry it as a hypothesis).  Rust HashMap / BTreeMap
values are modelled as association lists; iteration order of a HashMap is
arbitrary in Rust, and the list order plays that role here.  Fallible Rust
functions returning Result are modelled with Option.  Stateful handlers
become pure functions from the old state (plus the inputs read from the
network, and the current time in milliseconds where the source consults
the clock) to the new state together with a description of the messages
sent.
-/

namespace FacetimeV5

/-- Model of std::net::SocketAddr: only equality of addresses matters. -/
abbrev Addr := Nat

/-- Modelled from the spec: RoomID is a fixed-length opaque byte string;
the shared RoomID type is not under src/ and the spec fixes the reference
size at 4 bytes. -/
def RID_LEN : Nat := 4

/-- Modelled from the spec: StreamID is a fixed-length opaque byte string;
the shared StreamID type is not under src/ and the spec fixes the reference
size at 4 bytes. -/
def SID_LEN : Nat := 4

abbrev StreamID := List Nat
abbrev RoomID := List Nat
abbrev Username := List Nat

/-! Association lists standing in for Rust HashMap (keys kept unique by the
operations below; list order models the map's iteration order). -/

/-- HashMap::get. -/
def alookup {α β : Type} [DecidableEq α] (k : α) : List (α × β) → Option β
  | [] => none
  | (k', v) :: rest => if k' = k then some v else alookup k rest

/-- HashMap::contains_key. -/
def acontains {α β : Type} [DecidableEq α] (k : α) (m : List (α × β)) : Bool :=
  (alookup k m).isSome

/-- HashMap::insert: replace the value if the key is present, else append. -/
def alinsert {α β : Type} [DecidableEq α] (k : α) (v : β) : List (α × β) → List (α × β)
  | [] => [(k, v)]
  | (k', v') :: rest => if k' = k then (k, v) :: rest else (k', v') :: alinsert k v rest

/-- HashMap::remove (dropping the first entry with this key). -/
def alremove {α β : Type} [DecidableEq α] (k : α) : List (α × β) → List (α × β)
  | [] => []
  | (k', v') :: rest => if k' = k then rest else (k', v') :: alremove k rest

/-- Overwrite the value stored at an existing key; no-op if the key is absent
(models writing through HashMap::get_mut). -/
def alset {α β : Type} [DecidableEq α] (k : α) (v : β) : List (α × β) → List (α × β)
  | [] => []
  | (k', v') :: rest => if k' = k then (k, v) :: rest else (k', v') :: alset k v rest

/-! ## Wire codec: src/shared/src/tcp_command_id.rs -/

/-- Tag values are the zero-based opcode index plus this offset. -/
def COMMAND_BYTE_OFFSET : Nat := 69

/-- The control-channel opcode catalog, in declaration order. -/
inductive TcpCommandId
  | helloFromClient
  | helloFromServer
  | errorResponse
  | getUserList
  | userList
  | getRoomList
  | roomList
  | createRoom
  | createRoomSuccess
  | deleteRoom
  | deleteRoomSuccess
  | joinRoom
  | joinRoomSuccess
  | leaveRoom
  | otherUserJoinedRoom
  | otherUserLeftRoom
  deriving DecidableEq

/-- The dense zero-based index of an opcode (the value of the Rust
discriminant, `Variant as u8`). -/
def TcpCommandId.index : TcpCommandId → Nat
  | .helloFromClient => 0
  | .helloFromServer => 1
  | .errorResponse => 2
  | .getUserList => 3
  | .userList => 4
  | .getRoomList => 5
  | .roomList => 6
  | .createRoom => 7
  | .createRoomSuccess => 8
  | .deleteRoom => 9
  | .deleteRoomSuccess => 10
  | .joinRoom => 11
  | .joinRoomSuccess => 12
  | .leaveRoom => 13
  | .otherUserJoinedRoom => 14
  | .otherUserLeftRoom => 15

/-- Opcode with a given index, if any (the match arms of from_byte). -/
def TcpCommandId.ofIndex : Nat → Option TcpCommandId
  | 0 => some .helloFromClient
  | 1 => some .helloFromServer
  | 2 => some .errorResponse
  | 3 => some .getUserList
  | 4 => some .userList
  | 5 => some .getRoomList
  | 6 => some .roomList
  | 7 => some .createRoom
  | 8 => some .createRoomSuccess
  | 9 => some .deleteRoom
  | 10 => some .deleteRoomSuccess
  | 11 => some .joinRoom
  | 12 => some .joinRoomSuccess
  | 13 => some .leaveRoom
  | 14 => some .otherUserJoinedRoom
  | 15 => some .otherUserLeftRoom
  | _ => none

/-- TcpCommandId::to_byte: index plus the offset (no u8 overflow: max 84). -/
def TcpCommandId.to_byte (id : TcpCommandId) : Nat :=
  id.index + COMMAND_BYTE_OFFSET

/-- TcpCommandId::from_byte: wrapping u8 subtraction of the offset, then the
index match; unmapped values are rejected. -/
def TcpCommandId.from_byte (b : Nat) : Option TcpCommandId :=
  TcpCommandId.ofIndex ((b + 256 - COMMAND_BYTE_OFFSET) % 256)

inductive TcpCommandPayloadType
  | simple
  | string
  | bytes
  | stringList
  deriving DecidableEq

/-- TcpCommandId::get_payload_type. -/
def TcpCommandId.get_payload_type : TcpCommandId → TcpCommandPayloadType
  | .helloFromServer => .simple
  | .getUserList => .simple
  | .getRoomList => .simple
  | .createRoomSuccess => .simple
  | .createRoom => .string
  | .deleteRoomSuccess => .simple
  | .leaveRoom => .simple
  | .helloFromClient => .string
  | .errorResponse => .string
  | .deleteRoom => .string
  | .joinRoom => .string
  | .userList => .stringList
  | .roomList => .stringList
  | .joinRoomSuccess => .bytes
  | .otherUserJoinedRoom => .bytes
  | .otherUserLeftRoom => .bytes

/-! ## Wire codec: src/shared/src/tcp_command.rs

Rust String payloads are modelled by their UTF-8 byte lists; two Rust
Strings are equal iff their byte lists are, and str::from_utf8 succeeds
exactly on well-formed UTF-8 and returns a String with the same bytes, so
decoding's from_utf8(..)?.to_string() becomes a validity check that keeps
the bytes. -/

/-- A UTF-8 continuation byte (0x80..=0xBF). -/
def isUtf8Cont (b : Nat) : Bool := 0x80 ≤ b && b ≤ 0xBF

/-- Lower bound of the first continuation byte for leader b (the E0/F0
tightened forms that rule out overlong encodings). -/
def utf8ContLo (b : Nat) : Nat :=
  if b = 0xE0 then 0xA0 else if b = 0xF0 then 0x90 else 0x80

/-- Upper bound of the first continuation byte for leader b (the ED/F4
tightened forms that rule out surrogates and values above U+10FFFF). -/
def utf8ContHi (b : Nat) : Nat :=
  if b = 0xED then 0x9F else if b = 0xF4 then 0x8F else 0xBF

/-- Well-formed UTF-8, the acceptance set of str::from_utf8. -/
def utf8Valid : List Nat → Bool
  | [] => true
  | b :: rest =>
    if b < 0x80 then utf8Valid rest
    else if b < 0xC2 then false
    else if b ≤ 0xDF then
      match rest with
      | c1 :: rest2 => isUtf8Cont c1 && utf8Valid rest2
      | [] => false
    else if b ≤ 0xEF then
      match rest with
      | c1 :: c2 :: rest2 =>
        (decide (utf8ContLo b ≤ c1) && decide (c1 ≤ utf8ContHi b)) &&
          isUtf8Cont c2 && utf8Valid rest2
      | _ => false
    else if b ≤ 0xF4 then
      match rest with
      | c1 :: c2 :: c3 :: rest2 =>
        (decide (utf8ContLo b ≤ c1) && decide (c1 ≤ utf8ContHi b)) &&
          isUtf8Cont c2 && isUtf8Cont c3 && utf8Valid rest2
      | _ => false
    else false

/-- The TcpCommand enum; string payloads are carried as UTF-8 byte lists. -/
inductive TcpCommand
  | simple (id : TcpCommandId)
  | string (id : TcpCommandId) (payload : List Nat)
  | bytes (id : TcpCommandId) (payload : List Nat)
  | stringList (id : TcpCommandId) (payload : List (List Nat))
  deriving DecidableEq

/-- The StringList encoding loop: each string is length-prefixed; a string
longer than 255 bytes aborts the whole send with an error. -/
def encodeStringList : List (List Nat) → Option (List Nat)
  | [] => some []
  | s :: rest =>
    if s.length > 255 then none
    else
      match encodeStringList rest with
      | some tail => some (s.length :: s ++ tail)
      | none => none

/-- TcpCommand::write_to_stream: the bytes written to the socket, or none
for the fatal payload-too-large send errors. -/
def TcpCommand.write_to_stream : TcpCommand → Option (List Nat)
  | .simple id => some [id.to_byte]
  | .string id payload =>
    if payload.length > 255 then none
    else some (id.to_byte :: payload.length :: payload)
  | .bytes id payload =>
    if payload.length > 255 then none
    else some (id.to_byte :: payload.length :: payload)
  | .stringList id payload =>
    if payload.length > 255 then none
    else
      match encodeStringList payload with
      | some body => some (id.to_byte :: payload.length :: body)
      | none => none

/-- The outcome of read_from_stream: orderly EOF is a distinct non-error
outcome. -/
inductive ReceivedTcpCommand
  | eof
  | command (cmd : TcpCommand)
  deriving DecidableEq

/-- read_exact n: take exactly n bytes from the stream or fail. -/
def readExact (n : Nat) (s : List Nat) : Option (List Nat × List Nat) :=
  if s.length < n then none else some (s.take n, s.drop n)

/-- The StringList decoding loop: count repetitions of len(1) then bytes,
each checked to be UTF-8. -/
def readStrings : Nat → List Nat → Option (List (List Nat) × List Nat)
  | 0, s => some ([], s)
  | n + 1, s =>
    match s with
    | [] => none
    | len :: s1 =>
      match readExact len s1 with
      | none => none
      | some (sb, s2) =>
        if utf8Valid sb then
          match readStrings n s2 with
          | some (rest, s3) => some (sb :: rest, s3)
          | none => none
        else none

/-- TcpCommand::read_from_stream on a byte stream modelled as a list: an
empty stream is EOF; otherwise the tag byte selects the id, the id's
payload type selects the body shape, and any short read or malformed
content is a hard error (none).  Returns the decoded frame and the
unconsumed rest of the stream. -/
def TcpCommand.read_from_stream (s : List Nat) :
    Option (ReceivedTcpCommand × List Nat) :=
  match s with
  | [] => some (.eof, [])
  | b :: s1 =>
    match TcpCommandId.from_byte b with
    | none => none
    | some id =>
      match id.get_payload_type with
      | .simple => some (.command (.simple id), s1)
      | .string =>
        match s1 with
        | [] => none
        | len :: s2 =>
          match readExact len s2 with
          | none => none
          | some (pb, s3) =>
            if utf8Valid pb then some (.command (.string id pb), s3) else none
      | .bytes =>
        match s1 with
        | [] => none
        | len :: s2 =>
          match readExact len s2 with
          | none => none
          | some (pb, s3) => some (.command (.bytes id pb), s3)
      | .stringList =>
        match s1 with
        | [] => none
        | cnt :: s2 =>
          match readStrings cnt s2 with
          | none => none
          | some (lst, s3) => some (.command (.stringList id lst), s3)

/-- The payload shape of a command value agrees with the payload type its
id declares (Rust's TcpCommand enum does not enforce this; frames the
server actually builds satisfy it). -/
def TcpCommand.shapeOk : TcpCommand → Bool
  | .simple id => id.get_payload_type = .simple
  | .string id _ => id.get_payload_type = .string
  | .bytes id _ => id.get_payload_type = .bytes
  | .stringList id _ => id.get_payload_type = .stringList

/-- The side conditions under which a command is encodable and its string
payloads are real Rust Strings: every length fits in the u8 prefix and
every string payload is well-formed UTF-8. -/
def TcpCommand.payloadOk : TcpCommand → Bool
  | .simple _ => true
  | .string _ p => p.length ≤ 255 && utf8Valid p
  | .bytes _ p => p.length ≤ 255
  | .stringList _ ps =>
    ps.length ≤ 255 && ps.all (fun s => s.length ≤ 255 && utf8Valid s)

/-! ## Username validation and handshake:
src/shared/src/lib.rs, src/server/src/tcp_handler.rs -/

def MAX_NAME_LENGTH : Nat := 15

/-- The bytes of an ASCII Lean string (for ASCII text the UTF-8 bytes are
the code points); used for the literal server messages. -/
def strBytes (s : String) : List Nat := s.data.map Char.toNat

/-- char::is_ascii_alphanumeric on a byte value. -/
def isAsciiAlphanumeric (c : Nat) : Bool :=
  (48 ≤ c && c ≤ 57) || (65 ≤ c && c ≤ 90) || (97 ≤ c && c ≤ 122)

/-- shared::is_valid_name.  The source iterates chars of a Rust String; on
its UTF-8 bytes this byte-wise check is equivalent: a string passes the
char-wise class check iff every byte is an ASCII class member, since any
non-ASCII char fails the check and contributes non-ASCII bytes. -/
def is_valid_name (name : List Nat) : Bool :=
  name.all (fun c => isAsciiAlphanumeric c || c = 95 || c = 45)

def msgNameTooLong : List Nat :=
  strBytes ("Username must be less than or equal to " ++ toString MAX_NAME_LENGTH
    ++ " characters.")

def msgNameBadChars : List Nat :=
  strBytes "Username must contain only letters, numbers, underscores (_), or hyphens (-)."

def msgNameTaken : List Nat := strBytes "Username is already taken."

/-- Result of TcpHandler::handle_handshake: the frame written back to the
client (if any), the accepted username (Ok(Some(..))), and whether the
function returned Err (a non-hello first frame). -/
structure HandshakeResult where
  response : Option TcpCommand
  accepted : Option Username
  failed : Bool
  deriving DecidableEq

/-- TcpHandler::handle_handshake, given the first decoded frame of the
connection.  EOF closes silently; a non-HelloFromClient frame is an error;
otherwise the username is checked (upper length bound, character class,
uniqueness) and on rejection the specific ErrorResponse is sent and the
connection closed without registering, on success HelloFromServer is
sent. -/
def handle_handshake (users : List Username) (received : ReceivedTcpCommand) :
    HandshakeResult :=
  match received with
  | .eof => ⟨none, none, false⟩
  | .command (.string .helloFromClient username) =>
    if username.length > MAX_NAME_LENGTH then
      ⟨some (.string .errorResponse msgNameTooLong), none, false⟩
    else if ¬ is_valid_name username then
      ⟨some (.string .errorResponse msgNameBadChars), none, false⟩
    else if users.contains username then
      ⟨some (.string .errorResponse msgNameTaken), none, false⟩
    else
      ⟨some (.simple .helloFromServer), some username, false⟩
  | .command _ => ⟨none, none, true⟩

/-- The registration step of TcpHandler::handle_stream: after a successful
handshake the username is pushed onto the user registry; on any other
outcome the registry is untouched. -/
def handle_stream_register (users : List Username) (received : ReceivedTcpCommand) :
    List Username × HandshakeResult :=
  let r := handle_handshake users received
  match r.accepted with
  | some u => (users ++ [u], r)
  | none => (users, r)

/-! ## Rooms and the command dispatcher:
src/server/src/tcp_command_handler.rs

The Room used by this handler and by the datagram relay (the iteration of
the source with separate video and audio stream tables; src/server/src/
room.rs in this snapshot is the earlier single-table iteration, used only
by the disconnect path in wes_sfu.rs). -/

structure Room where
  name : List Nat
  video_stream_id_to_socket_addr : List (StreamID × Option Addr)
  audio_stream_id_to_socket_addr : List (StreamID × Option Addr)
  users : List Username
  deriving DecidableEq

/-- A byte of ASCII whitespace (str::trim; non-ASCII Unicode whitespace is
not modelled, it cannot occur in the names the claims use). -/
def isAsciiWhitespace (b : Nat) : Bool := b = 0x20 || (0x09 ≤ b && b ≤ 0x0D)

/-- str::trim on the byte list. -/
def trimAscii (s : List Nat) : List Nat :=
  ((s.dropWhile isAsciiWhitespace).reverse.dropWhile isAsciiWhitespace).reverse

def msgRoomNameEmpty : List Nat := strBytes "Room name cannot be empty"

/-- The formatted message of the Room does-not-exist ErrorResponse
(byte 39 is the apostrophe around the name). -/
def msgRoomDoesNotExist (name : List Nat) : List Nat :=
  strBytes "Room " ++ [39] ++ name ++ [39] ++ strBytes " does not exist"

/-- Result of TcpCommandHandler::handle_join_room: the updated room
registry, the session StreamID pair recorded on the connection, the frames
written directly to the joiner's stream in order, and the commands
enqueued on other users' outbound channels in order. -/
structure JoinResult where
  room_map : List (RoomID × Room)
  current_sid : Option (StreamID × StreamID)
  stream_writes : List TcpCommand
  broadcasts : List (Username × TcpCommand)
  deriving DecidableEq

/-- The room-registry scan of handle_join_room: find the first room whose
name matches, snapshot the pre-existing StreamIDs of both tables and the
pre-existing members, insert the two fresh StreamIDs with absent
addresses, append the joiner to members.  Returns the RoomID, the updated
registry and the three snapshots. -/
def joinScan (room_name : List Nat) (username : Username) (vsid asid : StreamID) :
    List (RoomID × Room) →
    Option (RoomID × List (RoomID × Room) × List StreamID × List StreamID × List Username)
  | [] => none
  | (rid, room) :: rest =>
    if room.name = room_name then
      let other_video := room.video_stream_id_to_socket_addr.map Prod.fst
      let other_audio := room.audio_stream_id_to_socket_addr.map Prod.fst
      let room' : Room :=
        { room with
          video_stream_id_to_socket_addr :=
            alinsert vsid none room.video_stream_id_to_socket_addr,
          audio_stream_id_to_socket_addr :=
            alinsert asid none room.audio_stream_id_to_socket_addr,
          users := room.users ++ [username] }
      some (rid, (rid, room') :: rest, other_video, other_audio, room.users)
    else
      match joinScan room_name username vsid asid rest with
      | some (rid', rest', ov, oa, ou) => some (rid', (rid, room) :: rest', ov, oa, ou)
      | none => none

/-- TcpCommandHandler::handle_join_room.  The fresh random video and audio
StreamIDs are parameters (the source draws them from the RNG before the
scan).  tx_users lists the usernames that have an outbound channel. -/
def handle_join_room (username : Username) (vsid asid : StreamID)
    (room_map : List (RoomID × Room)) (tx_users : List Username)
    (room_name : List Nat) (current_sid : Option (StreamID × StreamID)) : JoinResult :=
  if (trimAscii room_name).isEmpty then
    ⟨room_map, current_sid, [.string .errorResponse msgRoomNameEmpty], []⟩
  else
    match joinScan room_name username vsid asid room_map with
    | some (rid, room_map', other_video, other_audio, other_users) =>
      let payload := rid ++ vsid ++ rid ++ asid
      let writes := TcpCommand.bytes .joinRoomSuccess payload ::
        (other_video.map (fun s => TcpCommand.bytes .otherUserJoinedRoom s) ++
         other_audio.map (fun s => TcpCommand.bytes .otherUserJoinedRoom s))
      let bc := (other_users.filter (fun u => tx_users.contains u)).flatMap (fun u =>
        [(u, TcpCommand.bytes .otherUserJoinedRoom vsid),
         (u, TcpCommand.bytes .otherUserJoinedRoom asid)])
      ⟨room_map', some (vsid, asid), writes, bc⟩
    | none =>
      ⟨room_map, current_sid,
        [.string .errorResponse (msgRoomDoesNotExist room_name)], []⟩

/-- Result of TcpCommandHandler::handle_leave_room. -/
structure LeaveResult where
  room_map : List (RoomID × Room)
  current_sid : Option (StreamID × StreamID)
  broadcasts : List (Username × TcpCommand)
  failed : Bool
  deriving DecidableEq

/-- The room-registry scan of handle_leave_room, transcribed as the source
has it: the first room whose VIDEO table contains the video StreamID has
that StreamID removed and the user dropped from members (recording the
departing video StreamID for the broadcast); otherwise a room whose VIDEO
table contains the AUDIO StreamID has that entry removed and the user
dropped, with no StreamID recorded.  Returns the updated registry, the
recorded leaving video StreamID, the post-removal member snapshot, and
whether a room matched. -/
def leaveScan (username : Username) (vsid asid : StreamID) :
    List (RoomID × Room) →
    List (RoomID × Room) × Option StreamID × List Username × Bool
  | [] => ([], none, [], false)
  | (rid, room) :: rest =>
    if acontains vsid room.video_stream_id_to_socket_addr then
      let room' : Room :=
        { room with
          video_stream_id_to_socket_addr :=
            alremove vsid room.video_stream_id_to_socket_addr,
          users := room.users.filter (fun u => u ≠ username) }
      ((rid, room') :: rest, some vsid, room'.users, true)
    else if acontains asid room.video_stream_id_to_socket_addr then
      let room' : Room :=
        { room with
          video_stream_id_to_socket_addr :=
            alremove asid room.video_stream_id_to_socket_addr,
          users := room.users.filter (fun u => u ≠ username) }
      ((rid, room') :: rest, none, room'.users, true)
    else
      let (rest', leaving, affected, matched) := leaveScan username vsid asid rest
      ((rid, room) :: rest', leaving, affected, matched)

/-- TcpCommandHandler::handle_leave_room.  Err when the connection has no
current session; otherwise scan the rooms as above, and broadcast
OtherUserLeftRoom carrying the recorded video StreamID (if one was
recorded) to the remaining members that have an outbound channel. -/
def handle_leave_room (username : Username)
    (current_sid : Option (StreamID × StreamID))
    (room_map : List (RoomID × Room)) (tx_users : List Username) : LeaveResult :=
  match current_sid with
  | none => ⟨room_map, none, [], true⟩
  | some (vsid, asid) =>
    let (rm', leaving, affected, matched) := leaveScan username vsid asid room_map
    let sid' := if matched then none else some (vsid, asid)
    let bc := match leaving with
      | some sid =>
        (affected.filter (fun u => tx_users.contains u)).map
          (fun u => (u, TcpCommand.bytes .otherUserLeftRoom sid))
      | none => []
    ⟨rm', sid', bc, false⟩

/-! ## Datagram relay: src/server/src/udp_handler.rs -/

def BATCH_SIZE : Nat := 32
/-- Batch flush timeout, in milliseconds. -/
def BATCH_TIMEOUT : Nat := 1
/-- Rate-limit window, in milliseconds. -/
def RATE_LIMIT_WINDOW : Nat := 1000
def MAX_PACKETS_PER_SECOND : Nat := 5000
def BACKPRESSURE_THRESHOLD : Nat := 500
def MIN_PACKET_SIZE : Nat := RID_LEN + SID_LEN + 1

structure ClientStats where
  last_seen : Nat
  packet_count : Nat
  rate_window_start : Nat
  deriving DecidableEq

/-- UdpHandler::check_rate_limit at time now (milliseconds): fetch or
create the per-source entry, lazily reset the window if it has expired,
count the packet, and pass iff the count is within the cap. -/
def check_rate_limit (clients : List (Addr × ClientStats)) (addr : Addr) (now : Nat) :
    List (Addr × ClientStats) × Bool :=
  let c0 := (alookup addr clients).getD ⟨now, 0, now⟩
  let c1 := if RATE_LIMIT_WINDOW ≤ now - c0.rate_window_start then
      { c0 with packet_count := 0, rate_window_start := now }
    else c0
  let c2 : ClientStats := { c1 with packet_count := c1.packet_count + 1, last_seen := now }
  (alinsert addr c2 clients, c2.packet_count ≤ MAX_PACKETS_PER_SECOND)

structure PacketBatch where
  packets : List (List Nat × List Addr)
  last_flush : Nat
  deriving DecidableEq

/-- PacketBatch::should_flush at time now. -/
def PacketBatch.should_flush (b : PacketBatch) (now : Nat) : Bool :=
  BATCH_SIZE ≤ b.packets.length ||
    (!b.packets.isEmpty && BATCH_TIMEOUT ≤ now - b.last_flush)

/-- Which stream table of the room matched the StreamID (the
Some("video") / Some("audio") strings of the source). -/
inductive MapKind
  | video
  | audio
  deriving DecidableEq

/-- What handle_packet did with the datagram, one constructor per return
path of the source. -/
inductive PacketAction
  | droppedShort
  | droppedRateLimited
  | droppedUnknown
  | droppedNoDestination
  | droppedBackpressure
  | sentImmediate (payload : List Nat) (destinations : List Addr)
  | queuedBatch (payload : List Nat) (destinations : List Addr)
  deriving DecidableEq

/-- The datagrams this action hands to the socket layer, now (immediate
path) or via the batch buffer (batched path): payload and its destination
list. -/
def PacketAction.deliveries : PacketAction → List (List Nat × List Addr)
  | .sentImmediate p d => [(p, d)]
  | .queuedBatch p d => [(p, d)]
  | _ => []

structure UdpHandlerState where
  room_map : List (RoomID × Room)
  client_stats : List (Addr × ClientStats)
  packet_batch : PacketBatch
  packets_received : Nat
  packets_forwarded : Nat
  packets_dropped : Nat
  deriving DecidableEq

structure HandlePacketResult where
  state : UdpHandlerState
  action : PacketAction
  flushed : List (List Nat × List Addr)
  deriving DecidableEq

/-- The fan-out collection: the addresses of all entries of the table
other than the sender's StreamID whose address is known, in table order. -/
def collectOthers (m : List (StreamID × Option Addr)) (sid : StreamID) : List Addr :=
  m.filterMap (fun e => if e.1 = sid then none else e.2)

/-- needs_update: the entry is absent or its address is still none
(map_or(true, is_none)). -/
def needsUpdate (m : List (StreamID × Option Addr)) (sid : StreamID) : Bool :=
  match alookup sid m with
  | some (some _) => false
  | _ => true

/-- The body of the get_mut write: set the entry's address iff the entry
exists and its address is still absent. -/
def learnAddr (m : List (StreamID × Option Addr)) (sid : StreamID) (a : Addr) :
    List (StreamID × Option Addr) :=
  match alookup sid m with
  | some none => alset sid (some a) m
  | _ => m

/-- The two needs_update write blocks of handle_packet: the first writes
the matched table; the second, duplicated block always writes the VIDEO
table (a no-op in practice: for a video packet the address was just set,
and an audio packet's StreamID is not a video key). -/
def applyLearning (room_map : List (RoomID × Room)) (rid : RoomID) (sid : StreamID)
    (kind : MapKind) (from_addr : Addr) (needs_update : Bool) : List (RoomID × Room) :=
  if needs_update then
    let m1 := match alookup rid room_map with
      | some room =>
        let room' : Room := match kind with
          | .video =>
            { room with video_stream_id_to_socket_addr :=
                learnAddr room.video_stream_id_to_socket_addr sid from_addr }
          | .audio =>
            { room with audio_stream_id_to_socket_addr :=
                learnAddr room.audio_stream_id_to_socket_addr sid from_addr }
        alset rid room' room_map
      | none => room_map
    match alookup rid m1 with
    | some room =>
      alset rid
        { room with video_stream_id_to_socket_addr :=
            learnAddr room.video_stream_id_to_socket_addr sid from_addr } m1
    | none => m1
  else room_map

/-- The fan-out tail of handle_packet: empty destination set returns
early; a batch already at the back-pressure threshold drops and counts;
at most 3 destinations send immediately (sends modelled as succeeding, so
they count as forwarded); more destinations append to the batch and flush
it if full or stale.  Flushed packets are reported in the flushed field
(the source groups them by destination before sending; the multiset of
sends is unchanged by that grouping). -/
def udpForward (st : UdpHandlerState) (to_addrs : List Addr) (payload : List Nat)
    (now : Nat) : HandlePacketResult :=
  if to_addrs.isEmpty then ⟨st, .droppedNoDestination, []⟩
  else if BACKPRESSURE_THRESHOLD ≤ st.packet_batch.packets.length then
    ⟨{ st with packets_dropped := st.packets_dropped + 1 }, .droppedBackpressure, []⟩
  else if to_addrs.length ≤ 3 then
    ⟨{ st with packets_forwarded := st.packets_forwarded + to_addrs.length },
      .sentImmediate payload to_addrs, []⟩
  else
    let batch : PacketBatch :=
      { st.packet_batch with packets := st.packet_batch.packets ++ [(payload, to_addrs)] }
    if batch.should_flush now then
      let cleared : PacketBatch := { packets := [], last_flush := now }
      let sent := (batch.packets.map (fun p => p.2.length)).sum
      ⟨{ st with packet_batch := cleared, packets_forwarded := st.packets_forwarded + sent },
        .queuedBatch payload to_addrs, batch.packets⟩
    else
      ⟨{ st with packet_batch := batch }, .queuedBatch payload to_addrs, []⟩

/-- UdpHandler::handle_packet at time now: count the datagram, drop short
datagrams, rate-limit per source, decode RoomID and StreamID, look the
room up and the StreamID up (video table first, then audio), collect the
other known addresses of the matched table, learn the sender's address if
still absent, and fan out with RoomID stripped. -/
def handle_packet (st0 : UdpHandlerState) (buf : List Nat) (from_addr : Addr)
    (now : Nat) : HandlePacketResult :=
  let st := { st0 with packets_received := st0.packets_received + 1 }
  if buf.length < MIN_PACKET_SIZE then ⟨st, .droppedShort, []⟩
  else
    let rl := check_rate_limit st.client_stats from_addr now
    let st := { st with client_stats := rl.1 }
    if !rl.2 then
      ⟨{ st with packets_dropped := st.packets_dropped + 1 }, .droppedRateLimited, []⟩
    else
      let rid := buf.take RID_LEN
      let sid := (buf.drop RID_LEN).take SID_LEN
      let payload := (buf.drop RID_LEN).take SID_LEN ++ buf.drop (RID_LEN + SID_LEN)
      match alookup rid st.room_map with
      | none => ⟨st, .droppedUnknown, []⟩
      | some room =>
        let vm := room.video_stream_id_to_socket_addr
        let am := room.audio_stream_id_to_socket_addr
        if acontains sid vm then
          let rm := applyLearning st.room_map rid sid .video from_addr (needsUpdate vm sid)
          let st' := { st with room_map := rm }
          udpForward st' (collectOthers vm sid) payload now
        else if acontains sid am then
          let rm := applyLearning st.room_map rid sid .audio from_addr (needsUpdate am sid)
          let st' := { st with room_map := rm }
          udpForward st' (collectOthers am sid) payload now
        else ⟨st, .droppedUnknown, []⟩

/-- Folding check_rate_limit over a list of arrival times of one source:
the pass/fail verdicts in order, and the final stats map. -/
def run_rate_limiter (clients : List (Addr × ClientStats)) (addr : Addr) :
    List Nat → List Bool × List (Addr × ClientStats)
  | [] => ([], clients)
  | t :: ts =>
    let r := check_rate_limit clients addr t
    let rest := run_rate_limiter r.1 addr ts
    (r.2 :: rest.1, rest.2)

/-! ## Client datagram path: src/client/src/udp_handler.rs -/

def CHUNK_SIZE : Nat := 1350
/-- Fragment-buffer timeout, in milliseconds. -/
def CHUNK_TIMEOUT : Nat := 50
def MIN_BLOCK_SIZE : Nat := 64
def SEQUENCE_WRAP : Nat := 1000000
def HEARTBEAT_INTERVAL : Nat := 30

inductive FrameType
  | full
  | delta
  | heartbeat
  deriving DecidableEq

/-- The wire value of the frame type (Full = 0, Delta = 1, Heartbeat = 2). -/
def FrameType.toByte : FrameType → Nat
  | .full => 0
  | .delta => 1
  | .heartbeat => 2

structure DeltaChunk where
  offset : Nat
  data : List Nat
  deriving DecidableEq

/-- The delta size threshold: the source computes
(new_frame.len() as f32 * 0.3) as usize; it is modelled as the exact
3 len / 10.  No theorem below depends on this value: the delta-application
correctness lemma is proved for every threshold. -/
def delta_threshold_size (len : Nat) : Nat := 3 * len / 10

/-- The skip-equal inner loop of create_delta_optimized: advance i while
in range and the frames agree; returns the first index at which they
differ (or the stopping point).  fuel bounds the iteration count; every
call below passes fuel covering the whole remaining frame, so the fuel
never runs out. -/
def findDiff (old new : List Nat) : Nat → Nat → Nat
  | 0, i => i
  | fuel + 1, i =>
    if i < new.length ∧ old.getD i 0 = new.getD i 0 then findDiff old new fuel (i + 1)
    else i

/-- The skip-different inner loop: advance i while in range and the frames
differ. -/
def findEq (old new : List Nat) : Nat → Nat → Nat
  | 0, i => i
  | fuel + 1, i =>
    if i < new.length ∧ old.getD i 0 ≠ new.getD i 0 then findEq old new fuel (i + 1)
    else i

/-- The lookahead count of create_delta_optimized: the number of equal
bytes starting at i, capped by the lookahead bound and the frame end. -/
def countIdentical (old new : List Nat) (i : Nat) : Nat → Nat
  | 0 => 0
  | la + 1 =>
    if i < new.length ∧ old.getD i 0 = new.getD i 0 then
      countIdentical old new (i + 1) la + 1
    else 0

/-- The slice new_frame[a..b].to_vec(). -/
def slice (l : List Nat) (a b : Nat) : List Nat := (l.drop a).take (b - a)

/-- The outer while of create_delta_optimized, from position i with the
accumulated serialized size total: skip equal bytes; at the frame end
return the collected chunks; otherwise take the run of differing bytes,
look ahead up to MIN_BLOCK_SIZE bytes, merge the following run when fewer
than MIN_BLOCK_SIZE/4 equal bytes separate them, and give up (None, the
Full fallback) once the accumulated size reaches the threshold.  fuel
bounds the iterations; each iteration advances i, so fuel = len + 1 - i
suffices and the top-level call never exhausts it. -/
def deltaLoop (old new : List Nat) (thr : Nat) : Nat → Nat → Nat → Option (List DeltaChunk)
  | 0, _, _ => none
  | fuel + 1, i, total =>
    if new.length ≤ i then some []
    else
      let start := findDiff old new (new.length + 1) i
      if new.length ≤ start then some []
      else
        let j := findEq old new (new.length + 1) start
        let lookahead := min MIN_BLOCK_SIZE (new.length - j)
        let ic := countIdentical old new j lookahead
        let j2 := if ic < MIN_BLOCK_SIZE / 4 then findEq old new (new.length + 1) (j + ic)
                  else j
        let total' := total + (j2 - start) + 8
        if thr ≤ total' then none
        else
          match deltaLoop old new thr fuel j2 total' with
          | some ds => some (⟨start, slice new start j2⟩ :: ds)
          | none => none

/-- create_delta_optimized: None (the Full fallback) on length mismatch or
oversize delta, otherwise the list of DeltaChunks. -/
def create_delta_optimized (old new : List Nat) : Option (List DeltaChunk) :=
  if old.length ≠ new.length then none
  else deltaLoop old new (delta_threshold_size new.length) (new.length + 1) 0 0

/-- Big-endian 4-byte encoding of the low 32 bits of n
(u32::to_be_bytes, with the usize value truncated to u32 as the source's
casts do). -/
def toBE4 (n : Nat) : List Nat :=
  [n / 2 ^ 24 % 256, n / 2 ^ 16 % 256, n / 2 ^ 8 % 256, n % 256]

/-- u32::from_be_bytes. -/
def fromBE4 (b0 b1 b2 b3 : Nat) : Nat := ((b0 * 256 + b1) * 256 + b2) * 256 + b3

/-- serialize_deltas_optimized: count(4 BE) then, per chunk,
offset(4 BE), length(4 BE), data. -/
def serialize_deltas_optimized (ds : List DeltaChunk) : List Nat :=
  toBE4 ds.length ++ ds.flatMap (fun d => toBE4 d.offset ++ toBE4 d.data.length ++ d.data)

/-- The parse loop of deserialize_deltas: count repetitions of
offset(4 BE), length(4 BE), data; any short read is an error.  Trailing
bytes after the last chunk are not rejected (as in the source). -/
def readChunks : Nat → List Nat → Option (List DeltaChunk)
  | 0, _ => some []
  | n + 1, s =>
    match s with
    | b0 :: b1 :: b2 :: b3 :: c0 :: c1 :: c2 :: c3 :: rest =>
      let off := fromBE4 b0 b1 b2 b3
      let len := fromBE4 c0 c1 c2 c3
      if rest.length < len then none
      else
        match readChunks n (rest.drop len) with
        | some ds => some (⟨off, rest.take len⟩ :: ds)
        | none => none
    | _ => none

/-- deserialize_deltas: read the 4-byte count then the chunks. -/
def deserialize_deltas (data : List Nat) : Option (List DeltaChunk) :=
  match data with
  | b0 :: b1 :: b2 :: b3 :: rest => readChunks (fromBE4 b0 b1 b2 b3) rest
  | _ => none

/-- One copy_from_slice of apply_delta_safe: replace
base[offset .. offset+len) by the chunk data (callers establish
offset + len ≤ base.length). -/
def writeChunk (base : List Nat) (c : DeltaChunk) : List Nat :=
  base.take c.offset ++ c.data ++ base.drop (c.offset + c.data.length)

/-- apply_delta_safe: validate every chunk bound first and fail without
mutating on any violation, then apply all chunks. -/
def apply_delta_safe (base : List Nat) (ds : List DeltaChunk) : Option (List Nat) :=
  if ds.all (fun c => c.offset + c.data.length ≤ base.length) then
    some (ds.foldl writeChunk base)
  else none

/-! Client fragment reassembly (udp_listener_loop receive iteration). -/

structure FragmentBuffer where
  chunks : List (Nat × List Nat)
  last_update : Nat
  frame_type : FrameType
  expected_chunks : Nat
  sequence : Nat
  deriving DecidableEq

structure FrameCache where
  last_frame : Option (List Nat)
  reconstructed_frame : Option (List Nat)
  last_sequence : Nat
  corrupted : Bool
  deriving DecidableEq

/-- FrameCache::new. -/
def FrameCache.new : FrameCache := ⟨none, none, 0, false⟩

/-- FrameCache::reset to a freshly received Full frame. -/
def FrameCache.reset (frame : List Nat) (sequence : Nat) : FrameCache :=
  ⟨some frame, some frame, sequence, false⟩

/-- BTreeMap::insert on the chunk map: keys kept sorted, replacing an
equal key. -/
def btinsert (k : Nat) (v : List Nat) : List (Nat × List Nat) → List (Nat × List Nat)
  | [] => [(k, v)]
  | (k', v') :: rest =>
    if k < k' then (k, v) :: (k', v') :: rest
    else if k = k' then (k, v) :: rest
    else (k', v') :: btinsert k v rest

/-- The per-peer reassembly state of udp_listener_loop. -/
structure ListenerState where
  fragment_buffers : List (StreamID × FragmentBuffer)
  frame_caches : List (StreamID × FrameCache)
  deriving DecidableEq

/-- Frame-type dispatch byte of the datagram, as matched by the listener
(any other value skips the datagram). -/
def byteToFrameType : Nat → Option FrameType
  | 0 => some .full
  | 1 => some .delta
  | 2 => some .heartbeat
  | _ => none

/-- The Delta arm of the listener dispatch: on a corrupted or absent cache
discard; otherwise deserialize and apply on a clone of the cached frame,
updating the cache and publishing on success and marking the cache
corrupted on any failure. -/
def dispatchDelta (cache : FrameCache) (frame_data : List Nat) (sequence : Nat) :
    FrameCache × Option (List Nat) :=
  if cache.corrupted then (cache, none)
  else
    match cache.reconstructed_frame with
    | some base =>
      match deserialize_deltas frame_data with
      | some deltas =>
        match apply_delta_safe base deltas with
        | some new_frame =>
          ({ cache with reconstructed_frame := some new_frame, last_sequence := sequence },
            some new_frame)
        | none => ({ cache with corrupted := true }, none)
      | none => ({ cache with corrupted := true }, none)
    | none => ({ cache with corrupted := true }, none)

/-- The body of one receive iteration of udp_listener_loop for a datagram
of n bytes at time now (milliseconds), excluding the time-driven eviction
sweep that follows it (evictExpired below): datagrams of at most
SID_LEN + 10 bytes are skipped entirely, as are unknown type bytes and
Heartbeats; otherwise the chunk is buffered under its StreamID (restarting
the buffer on a sequence change), and on the last chunk with a complete
buffer the frame is assembled in chunk order, dispatched by type, and the
fragment buffer evicted.  Returns the new state and the published frame
bytes, if any (Frame::from_bytes and the UI map are outside the model). -/
def process_datagram (st : ListenerState) (buf : List Nat) (now : Nat) :
    ListenerState × Option (StreamID × List Nat) :=
  if SID_LEN + 10 < buf.length then
    let sid := buf.take SID_LEN
    match byteToFrameType (buf.getD SID_LEN 0) with
    | none => (st, none)
    | some frame_type =>
      let sequence := fromBE4 (buf.getD (SID_LEN + 1) 0) (buf.getD (SID_LEN + 2) 0)
        (buf.getD (SID_LEN + 3) 0) (buf.getD (SID_LEN + 4) 0)
      let chunk_id := fromBE4 (buf.getD (SID_LEN + 5) 0) (buf.getD (SID_LEN + 6) 0)
        (buf.getD (SID_LEN + 7) 0) (buf.getD (SID_LEN + 8) 0)
      let is_last := buf.getD (SID_LEN + 9) 0 = 1
      let chunk_data := buf.drop (SID_LEN + 10)
      if frame_type = .heartbeat then (st, none)
      else
        let entry0 := (alookup sid st.fragment_buffers).getD
          ⟨[], now, frame_type, 0, sequence⟩
        let entry1 := if entry0.sequence ≠ sequence then
            { entry0 with chunks := [], frame_type := frame_type, sequence := sequence }
          else entry0
        let newChunks := btinsert chunk_id chunk_data entry1.chunks
        let entry2 := { entry1 with chunks := newChunks, last_update := now }
        if is_last then
          let entry3 := { entry2 with expected_chunks := chunk_id + 1 }
          if entry3.chunks.length = entry3.expected_chunks then
            let frame_data := entry3.chunks.flatMap Prod.snd
            let cache := (alookup sid st.frame_caches).getD FrameCache.new
            let (cache', published) :=
              match entry3.frame_type with
              | .full => (FrameCache.reset frame_data sequence, some frame_data)
              | .delta => dispatchDelta cache frame_data sequence
              | .heartbeat => (cache, none)
            ({ fragment_buffers := alremove sid st.fragment_buffers,
               frame_caches := alinsert sid cache' st.frame_caches },
              published.map (fun d => (sid, d)))
          else
            ({ st with fragment_buffers := alinsert sid entry3 st.fragment_buffers }, none)
        else
          ({ st with fragment_buffers := alinsert sid entry2 st.fragment_buffers }, none)
  else (st, none)

/-- The time-driven eviction sweep at the end of each receive iteration:
fragment buffers stale for CHUNK_TIMEOUT are dropped and the corresponding
caches marked corrupted.  It depends only on the clock, not on the
received datagram. -/
def evictExpired (st : ListenerState) (now : Nat) : ListenerState :=
  { fragment_buffers :=
      st.fragment_buffers.filter (fun e => now - e.2.last_update < CHUNK_TIMEOUT),
    frame_caches := st.fragment_buffers.foldl
      (fun caches e =>
        if CHUNK_TIMEOUT ≤ now - e.2.last_update then
          match alookup e.1 caches with
          | some c => alset e.1 { c with corrupted := true } caches
          | none => caches
        else caches)
      st.frame_caches }

/-- The Heartbeat datagram built by udp_send_loop: StreamID, type byte 2,
sequence(4 BE), chunk id 0(4 BE), last flag 1, no body. -/
def heartbeat_packet (video_sid : List Nat) (sequence : Nat) : List Nat :=
  video_sid ++ [FrameType.heartbeat.toByte] ++ toBE4 sequence ++ toBE4 0 ++ [1]

/-- Verification predicate for the delta generator: the chunk list ds,
read from scan position i, stays in bounds and in order, carries exactly
the new frame's bytes on its ranges, and the old and new frames agree at
every position of [i, new.length) not covered by a chunk. -/
def ChunksFrom (old new : List Nat) : Nat → List DeltaChunk → Prop
  | i, [] => ∀ j, i ≤ j → j < new.length → old.getD j 0 = new.getD j 0
  | i, c :: ds =>
    i ≤ c.offset ∧ c.offset + c.data.length ≤ new.length ∧
      (∀ j, i ≤ j → j < c.offset → old.getD j 0 = new.getD j 0) ∧
      (∀ k, k < c.data.length → c.data.getD k 0 = new.getD (c.offset + k) 0) ∧
      ChunksFrom old new (c.offset + c.data.length) ds

/-! # Theorems -/

/-! ## Wire codec lemmas -/

theorem index_le (id : TcpCommandId) : id.index ≤ 15 := by
  cases id <;> decide

theorem from_byte_to_byte (id : TcpCommandId) :
    TcpCommandId.from_byte id.to_byte = some id := by
  cases id <;> rfl

theorem ofIndex_index {n : Nat} {id : TcpCommandId}
    (h : TcpCommandId.ofIndex n = some id) : n = id.index := by
  unfold TcpCommandId.ofIndex at h
  split at h <;>
    first
    | (injection h with h2; subst h2; rfl)
    | exact Option.noConfusion h

theorem from_byte_inv {b : Nat} {id : TcpCommandId} (hb : b < 256)
    (h : TcpCommandId.from_byte b = some id) : b = id.to_byte := by
  have hidx : (b + 256 - 69) % 256 = id.index := ofIndex_index h
  have hle : id.index ≤ 15 := index_le id
  show b = id.index + 69
  rcases Nat.lt_or_ge b 69 with h69 | h69
  · rw [Nat.mod_eq_of_lt (show b + 256 - 69 < 256 by omega)] at hidx
    omega
  · have he : b + 256 - 69 = (b - 69) + 256 := by omega
    rw [he, Nat.add_mod_right, Nat.mod_eq_of_lt (show b - 69 < 256 by omega)] at hidx
    omega

theorem readExact_self (p tail : List Nat) :
    readExact p.length (p ++ tail) = some (p, tail) := by
  unfold readExact
  rw [if_neg (by simp), List.take_left, List.drop_left]

theorem readExact_inv {n : Nat} {s pb s3 : List Nat}
    (h : readExact n s = some (pb, s3)) :
    pb.length = n ∧ s = pb ++ s3 := by
  unfold readExact at h
  split at h
  · exact Option.noConfusion h
  · rename_i hlen
    simp only [Option.some.injEq, Prod.mk.injEq] at h
    obtain ⟨h1, h2⟩ := h
    subst h1
    subst h2
    refine ⟨?_, (List.take_append_drop n s).symm⟩
    rw [List.length_take]
    omega

theorem encodeStringList_ok {ps : List (List Nat)}
    (h : ps.all (fun s => s.length ≤ 255 && utf8Valid s)) :
    ∃ body, encodeStringList ps = some body ∧
      ∀ tail, readStrings ps.length (body ++ tail) = some (ps, tail) := by
  induction ps with
  | nil => exact ⟨[], rfl, fun tail => rfl⟩
  | cons s rest ih =>
    simp only [List.all_cons, Bool.and_eq_true, decide_eq_true_eq] at h
    obtain ⟨⟨hs, hu⟩, hrest⟩ := h
    obtain ⟨body, hb, hr⟩ := ih (by simpa using hrest)
    refine ⟨s.length :: s ++ body, ?_, ?_⟩
    · unfold encodeStringList
      rw [if_neg (by omega), hb]
    · intro tail
      show readStrings (rest.length + 1) ((s.length :: s ++ body) ++ tail) = _
      have hassoc : (s ++ body) ++ tail = s ++ (body ++ tail) := by simp
      simp only [List.cons_append, hassoc, readStrings, readExact_self s (body ++ tail)]
      rw [if_pos hu, hr tail]

theorem readStrings_inv {n : Nat} {s : List Nat} {lst : List (List Nat)}
    {s3 : List Nat} (hbytes : ∀ b ∈ s, b < 256)
    (h : readStrings n s = some (lst, s3)) :
    lst.length = n ∧ lst.all (fun x => x.length ≤ 255 && utf8Valid x) ∧
      ∃ body, encodeStringList lst = some body ∧ s = body ++ s3 := by
  induction n generalizing s lst with
  | zero =>
    simp only [readStrings, Option.some.injEq, Prod.mk.injEq] at h
    obtain ⟨h1, h2⟩ := h
    subst h1
    subst h2
    exact ⟨rfl, rfl, [], rfl, rfl⟩
  | succ n ih =>
    match s with
    | [] => exact Option.noConfusion h
    | len :: s1 =>
      simp only [readStrings] at h
      match hre : readExact len s1 with
      | none => simp [hre] at h
      | some (sb, s2) =>
        simp only [hre] at h
        obtain ⟨hlen, happ⟩ := readExact_inv hre
        split at h
        · rename_i hu
          match hrs : readStrings n s2 with
          | none => simp [hrs] at h
          | some (rest, s3') =>
            simp only [hrs] at h
            simp only [Option.some.injEq, Prod.mk.injEq] at h
            obtain ⟨h1, h2⟩ := h
            subst h1
            subst h2
            have hb2 : ∀ b ∈ s2, b < 256 := by
              intro b hb
              exact hbytes b (by simp [happ, hb])
            obtain ⟨hlst, hall, body, hbody, hs2⟩ := ih hb2 hrs
            have hlen255 : sb.length ≤ 255 := by
              have := hbytes len (by simp)
              omega
            refine ⟨by simp [hlst], ?_, len :: sb ++ body, ?_, ?_⟩
            · simp only [List.all_cons, Bool.and_eq_true, decide_eq_true_eq]
              exact ⟨⟨hlen255, hu⟩, by simpa using hall⟩
            · unfold encodeStringList
              rw [if_neg (by omega), hbody, hlen]
            · simp [happ, hs2, hlen]
        · exact Option.noConfusion h

/-- C3: for every control command of the four payload shapes whose payload
shape agrees with the payload type declared by its command id (as every
frame the system builds does) and whose payload lengths are at most 255 —
string payloads being well-formed UTF-8, which Rust's String type
guarantees — encoding then decoding returns an equal command consuming
exactly the encoding; decoding any byte stream into a command and
re-encoding reproduces exactly the consumed bytes; and a String or Bytes
payload of length 256 is rejected on encode with a send-side error. -/
theorem tcp_codec_roundtrip :
    (∀ c : TcpCommand, c.shapeOk → c.payloadOk →
      ∃ bs, c.write_to_stream = some bs ∧
        TcpCommand.read_from_stream bs = some (.command c, [])) ∧
    (∀ (bs rest : List Nat) (c : TcpCommand), (∀ b ∈ bs, b < 256) →
      TcpCommand.read_from_stream bs = some (.command c, rest) →
      ∃ enc, c.write_to_stream = some enc ∧ bs = enc ++ rest) ∧
    (∀ (id : TcpCommandId) (p : List Nat), p.length = 256 →
      (TcpCommand.string id p).write_to_stream = none ∧
      (TcpCommand.bytes id p).write_to_stream = none) := by
  refine ⟨?_, ?_, ?_⟩
  · intro c hs hp
    cases c with
    | simple id =>
      have hty : id.get_payload_type = .simple := by
        simpa [TcpCommand.shapeOk] using hs
      refine ⟨[id.to_byte], rfl, ?_⟩
      simp [TcpCommand.read_from_stream, from_byte_to_byte, hty]
    | string id p =>
      have hty : id.get_payload_type = .string := by
        simpa [TcpCommand.shapeOk] using hs
      simp only [TcpCommand.payloadOk, Bool.and_eq_true, decide_eq_true_eq] at hp
      refine ⟨id.to_byte :: p.length :: p, ?_, ?_⟩
      · simp only [TcpCommand.write_to_stream]
        rw [if_neg (by omega)]
      · have hex : readExact p.length p = some (p, []) := by
          have := readExact_self p []
          rwa [List.append_nil] at this
        simp [TcpCommand.read_from_stream, from_byte_to_byte, hty, hex, hp.2]
    | bytes id p =>
      have hty : id.get_payload_type = .bytes := by
        simpa [TcpCommand.shapeOk] using hs
      simp only [TcpCommand.payloadOk, decide_eq_true_eq] at hp
      refine ⟨id.to_byte :: p.length :: p, ?_, ?_⟩
      · simp only [TcpCommand.write_to_stream]
        rw [if_neg (by omega)]
      · have hex : readExact p.length p = some (p, []) := by
          have := readExact_self p []
          rwa [List.append_nil] at this
        simp [TcpCommand.read_from_stream, from_byte_to_byte, hty, hex]
    | stringList id ps =>
      have hty : id.get_payload_type = .stringList := by
        simpa [TcpCommand.shapeOk] using hs
      simp only [TcpCommand.payloadOk, Bool.and_eq_true, decide_eq_true_eq] at hp
      obtain ⟨body, hb, hr⟩ := encodeStringList_ok (by simpa using hp.2)
      refine ⟨id.to_byte :: ps.length :: body, ?_, ?_⟩
      · simp only [TcpCommand.write_to_stream]
        rw [if_neg (by omega), hb]
      · have hrs : readStrings ps.length body = some (ps, []) := by
          have := hr []
          rwa [List.append_nil] at this
        simp [TcpCommand.read_from_stream, from_byte_to_byte, hty, hrs]
  · intro bs rest c hbytes hdec
    match bs with
    | [] => simp [TcpCommand.read_from_stream] at hdec
    | b :: s1 =>
      simp only [TcpCommand.read_from_stream] at hdec
      match hfb : TcpCommandId.from_byte b with
      | none => simp [hfb] at hdec
      | some id =>
        simp only [hfb] at hdec
        have hb : b = id.to_byte := from_byte_inv (hbytes b (by simp)) hfb
        match hty : id.get_payload_type with
        | .simple =>
          simp only [hty, Option.some.injEq, Prod.mk.injEq] at hdec
          obtain ⟨h1, h2⟩ := hdec
          cases h1
          subst h2
          exact ⟨[id.to_byte], rfl, by simp [hb]⟩
        | .string =>
          simp only [hty] at hdec
          match s1 with
          | [] => exact Option.noConfusion hdec
          | len :: s2 =>
            match hre : readExact len s2 with
            | none => simp [hre] at hdec
            | some (pb, s3) =>
              simp only [hre] at hdec
              obtain ⟨hlen, happ⟩ := readExact_inv hre
              split at hdec
              · simp only [Option.some.injEq, Prod.mk.injEq] at hdec
                obtain ⟨h1, h2⟩ := hdec
                cases h1
                subst h2
                have h255 : len ≤ 255 := by
                  have := hbytes len (by simp)
                  omega
                refine ⟨id.to_byte :: len :: pb, ?_, ?_⟩
                · simp only [TcpCommand.write_to_stream]
                  rw [if_neg (by omega), hlen]
                · simp [hb, happ]
              · exact Option.noConfusion hdec
        | .bytes =>
          simp only [hty] at hdec
          match s1 with
          | [] => exact Option.noConfusion hdec
          | len :: s2 =>
            match hre : readExact len s2 with
            | none => simp [hre] at hdec
            | some (pb, s3) =>
              simp only [hre] at hdec
              simp only [Option.some.injEq, Prod.mk.injEq] at hdec
              obtain ⟨h1, h2⟩ := hdec
              cases h1
              subst h2
              obtain ⟨hlen, happ⟩ := readExact_inv hre
              have h255 : len ≤ 255 := by
                have := hbytes len (by simp)
                omega
              refine ⟨id.to_byte :: len :: pb, ?_, ?_⟩
              · simp only [TcpCommand.write_to_stream]
                rw [if_neg (by omega), hlen]
              · simp [hb, happ]
        | .stringList =>
          simp only [hty] at hdec
          match s1 with
          | [] => exact Option.noConfusion hdec
          | cnt :: s2 =>
            match hrs : readStrings cnt s2 with
            | none => simp [hrs] at hdec
            | some (lst, s3) =>
              simp only [hrs] at hdec
              simp only [Option.some.injEq, Prod.mk.injEq] at hdec
              obtain ⟨h1, h2⟩ := hdec
              cases h1
              subst h2
              have hb2 : ∀ x ∈ s2, x < 256 := by
                intro x hx
                exact hbytes x (by simp [hx])
              obtain ⟨hlst, hall, body, hbody, hs2⟩ := readStrings_inv hb2 hrs
              have h255 : cnt ≤ 255 := by
                have := hbytes cnt (by simp)
                omega
              refine ⟨id.to_byte :: cnt :: body, ?_, ?_⟩
              · simp only [TcpCommand.write_to_stream]
                rw [if_neg (by omega), hbody, hlst]
              · simp [hb, hs2]
  · intro id p hlen
    constructor <;>
      · simp only [TcpCommand.write_to_stream]
        rw [if_pos (by omega)]

/-- C3 counterexample to the unamended claim: the command
String(HelloFromServer, "") has one of the four payload shapes and payload
length 0 ≤ 255, encodes successfully, but decodes to
Simple(HelloFromServer): write_to_stream ignores the payload type declared
by the id, read_from_stream dispatches on it. -/
theorem tcp_codec_shape_mismatch :
    (TcpCommand.string .helloFromServer []).write_to_stream = some [70, 0] ∧
      TcpCommand.read_from_stream [70, 0] ≠
        some (.command (.string .helloFromServer []), []) ∧
      TcpCommand.read_from_stream [70, 0] =
        some (.command (.simple .helloFromServer), [0]) := by
  refine ⟨rfl, by decide, rfl⟩

/-- C3 witness: the round-trip theorem applied to the concrete frame
HelloFromClient "a" (bytes [69, 1, 97]), a length-0 Bytes frame with tag
JoinRoomSuccess (bytes [81, 0]), and a length-256 payload rejected on
encode. -/
theorem tcp_codec_roundtrip_witness :
    (∃ bs, (TcpCommand.string .helloFromClient [97]).write_to_stream = some bs ∧
      TcpCommand.read_from_stream bs =
        some (.command (.string .helloFromClient [97]), [])) ∧
    (∃ enc, (TcpCommand.bytes .joinRoomSuccess []).write_to_stream = some enc ∧
      [81, 0] = enc ++ []) ∧
    (TcpCommand.string .helloFromClient (List.replicate 256 97)).write_to_stream
      = none :=
  ⟨tcp_codec_roundtrip.1 _ (by decide) (by decide),
   tcp_codec_roundtrip.2.1 [81, 0] [] _ (by decide) (by decide),
   (tcp_codec_roundtrip.2.2 _ _ (List.length_replicate 256 97)).1⟩

/-! ## Association-list lemmas -/

theorem alookup_alinsert_self {α β : Type} [DecidableEq α] (k : α) (v : β)
    (m : List (α × β)) : alookup k (alinsert k v m) = some v := by
  induction m with
  | nil => simp [alinsert, alookup]
  | cons e rest ih =>
    by_cases h : e.1 = k
    · simp [alinsert, alookup, h]
    · simp [alinsert, alookup, h, ih]

theorem alookup_alinsert_ne {α β : Type} [DecidableEq α] {k k' : α} (v : β)
    (m : List (α × β)) (hne : k' ≠ k) :
    alookup k' (alinsert k v m) = alookup k' m := by
  induction m with
  | nil => simp [alinsert, alookup, Ne.symm hne]
  | cons e rest ih =>
    by_cases h : e.1 = k
    · simp [alinsert, alookup, h, Ne.symm hne]
    · simp [alinsert, alookup, h, ih]

theorem alookup_alset_self {α β : Type} [DecidableEq α] {k : α} (v : β)
    {m : List (α × β)} {w : β} (hw : alookup k m = some w) :
    alookup k (alset k v m) = some v := by
  induction m with
  | nil => simp [alookup] at hw
  | cons e rest ih =>
    by_cases h : e.1 = k
    · simp [alset, alookup, h]
    · simp only [alookup, h, if_false] at hw
      simp [alset, alookup, h, ih hw]

theorem alset_of_alookup_none {α β : Type} [DecidableEq α] {k : α} (v : β)
    {m : List (α × β)} (hw : alookup k m = none) : alset k v m = m := by
  induction m with
  | nil => rfl
  | cons e rest ih =>
    by_cases h : e.1 = k
    · simp [alookup, h] at hw
    · simp only [alookup, h, if_false] at hw
      simp [alset, h, ih hw]

theorem alookup_alset_ne {α β : Type} [DecidableEq α] {k k' : α} (v : β)
    (m : List (α × β)) (hne : k' ≠ k) :
    alookup k' (alset k v m) = alookup k' m := by
  induction m with
  | nil => rfl
  | cons e rest ih =>
    by_cases h : e.1 = k
    · simp [alset, alookup, h, Ne.symm hne]
    · simp [alset, alookup, h, ih]

/-! ## C6: handshake username validation -/

/-- C6 (amended): on a HelloFromClient frame the handshake accepts the
username iff its byte length is at most 15 — the empty username included:
the source checks only the upper length bound, the character class and
uniqueness, never a lower bound — and every character is in
[A-Za-z0-9_-], and the name is not currently taken.  On rejection the
ErrorResponse carrying the specific reason is sent and the user registry
is unchanged; on acceptance HelloFromServer is sent and the username is
registered. -/
theorem handshake_correct (users : List Username) (u : List Nat) :
    ((handle_handshake users (.command (.string .helloFromClient u))).accepted = some u ↔
      (u.length ≤ MAX_NAME_LENGTH ∧ is_valid_name u ∧ u ∉ users)) ∧
    ((handle_handshake users (.command (.string .helloFromClient u))).accepted = some u →
      (handle_handshake users (.command (.string .helloFromClient u))).response
          = some (.simple .helloFromServer) ∧
      (handle_stream_register users (.command (.string .helloFromClient u))).1
          = users ++ [u]) ∧
    ((handle_handshake users (.command (.string .helloFromClient u))).accepted = none →
      (handle_stream_register users (.command (.string .helloFromClient u))).1 = users ∧
      ((MAX_NAME_LENGTH < u.length ∧
          (handle_handshake users (.command (.string .helloFromClient u))).response
            = some (.string .errorResponse msgNameTooLong)) ∨
       (u.length ≤ MAX_NAME_LENGTH ∧ ¬ is_valid_name u ∧
          (handle_handshake users (.command (.string .helloFromClient u))).response
            = some (.string .errorResponse msgNameBadChars)) ∨
       (u.length ≤ MAX_NAME_LENGTH ∧ is_valid_name u ∧ u ∈ users ∧
          (handle_handshake users (.command (.string .helloFromClient u))).response
            = some (.string .errorResponse msgNameTaken)))) := by
  have hmem : users.contains u = true ↔ u ∈ users := by
    simp
  by_cases h1 : u.length > MAX_NAME_LENGTH
  · have e : handle_handshake users (.command (.string .helloFromClient u)) =
        ⟨some (.string .errorResponse msgNameTooLong), none, false⟩ := by
      simp only [handle_handshake]
      rw [if_pos h1]
    refine ⟨?_, ?_, ?_⟩
    · rw [e]
      constructor
      · intro h
        exact absurd h (by simp)
      · rintro ⟨ha, -, -⟩
        exact absurd h1 (by omega)
    · rw [e]
      intro h
      exact absurd h (by simp)
    · intro _
      refine ⟨by simp [handle_stream_register, e], Or.inl ⟨h1, by rw [e]⟩⟩
  · by_cases h2 : is_valid_name u
    · by_cases h3 : users.contains u = true
      · have e : handle_handshake users (.command (.string .helloFromClient u)) =
            ⟨some (.string .errorResponse msgNameTaken), none, false⟩ := by
          simp only [handle_handshake]
          rw [if_neg h1, if_neg (by simpa using h2), if_pos h3]
        refine ⟨?_, ?_, ?_⟩
        · rw [e]
          constructor
          · intro h
            exact absurd h (by simp)
          · rintro ⟨-, -, hnm⟩
            exact absurd (hmem.mp h3) hnm
        · rw [e]
          intro h
          exact absurd h (by simp)
        · intro _
          exact ⟨by simp [handle_stream_register, e],
            Or.inr (Or.inr ⟨by omega, h2, hmem.mp h3, by rw [e]⟩)⟩
      · have e : handle_handshake users (.command (.string .helloFromClient u)) =
            ⟨some (.simple .helloFromServer), some u, false⟩ := by
          simp only [handle_handshake]
          rw [if_neg h1, if_neg (by simpa using h2), if_neg h3]
        refine ⟨?_, ?_, ?_⟩
        · rw [e]
          exact ⟨fun _ => ⟨by omega, h2, fun hm => h3 (hmem.mpr hm)⟩, fun _ => rfl⟩
        · intro _
          exact ⟨by rw [e], by simp [handle_stream_register, e]⟩
        · rw [e]
          intro h
          exact absurd h (by simp)
    · have e : handle_handshake users (.command (.string .helloFromClient u)) =
          ⟨some (.string .errorResponse msgNameBadChars), none, false⟩ := by
        simp only [handle_handshake]
        rw [if_neg h1, if_pos (by simpa using h2)]
      refine ⟨?_, ?_, ?_⟩
      · rw [e]
        constructor
        · intro h
          exact absurd h (by simp)
        · rintro ⟨-, hv, -⟩
          exact absurd hv h2
      · rw [e]
        intro h
        exact absurd h (by simp)
      · intro _
        exact ⟨by simp [handle_stream_register, e],
          Or.inr (Or.inl ⟨by omega, h2, by rw [e]⟩)⟩

/-- C6 counterexample to the unamended claim: the empty username has
length 0, outside the claimed accepted lengths 1..=15, yet the handshake
accepts and registers it: is_valid_name vacuously passes the empty string
and no lower length bound is checked. -/
theorem handshake_accepts_empty :
    (handle_handshake [] (.command (.string .helloFromClient []))).accepted
        = some [] ∧
      (handle_handshake [] (.command (.string .helloFromClient []))).response
        = some (.simple .helloFromServer) ∧
      (handle_stream_register [] (.command (.string .helloFromClient []))).1
        = [[]] := by
  refine ⟨rfl, rfl, rfl⟩

/-- C6 witness: the amended theorem applied at username "a": accepted and
registered, with HelloFromServer sent. -/
theorem handshake_correct_witness :
    (handle_handshake [] (.command (.string .helloFromClient [97]))).response
        = some (.simple .helloFromServer) ∧
      (handle_stream_register [] (.command (.string .helloFromClient [97]))).1
        = [] ++ [[97]] :=
  (handshake_correct [] [97]).2.1 (by decide)

/-! ## C5: leave-room cleanup -/

/-- C5: the failing input.  Room "l" holds alice (video StreamID 1111,
audio StreamID 3333, both addresses learned) and bob (2222 / 4444); both
users have outbound channels.  When alice leaves, the source removes her
video StreamID and broadcasts it to bob, but never removes her audio
StreamID 3333 from the audio table — the second branch of the scan
erroneously probes the VIDEO table for the audio StreamID — and no
OtherUserLeftRoom for 3333 is broadcast, contradicting the claim that
after leaving no stream table contains either of the user's StreamIDs and
each removed StreamID is broadcast. -/
theorem leave_room_keeps_audio_sid :
    (∃ room2,
      alookup [9, 9, 9, 9]
          (handle_leave_room [97] (some ([1, 1, 1, 1], [3, 3, 3, 3]))
            [([9, 9, 9, 9],
              ⟨[108], [([1, 1, 1, 1], some 11), ([2, 2, 2, 2], some 22)],
                [([3, 3, 3, 3], some 11), ([4, 4, 4, 4], some 22)],
                [[97], [98]]⟩)]
            [[97], [98]]).room_map = some room2 ∧
        acontains [3, 3, 3, 3] room2.audio_stream_id_to_socket_addr = true ∧
        acontains [1, 1, 1, 1] room2.video_stream_id_to_socket_addr = false ∧
        room2.users = [[98]]) ∧
      (handle_leave_room [97] (some ([1, 1, 1, 1], [3, 3, 3, 3]))
          [([9, 9, 9, 9],
            ⟨[108], [([1, 1, 1, 1], some 11), ([2, 2, 2, 2], some 22)],
              [([3, 3, 3, 3], some 11), ([4, 4, 4, 4], some 22)],
              [[97], [98]]⟩)]
          [[97], [98]]).broadcasts
        = [([98], .bytes .otherUserLeftRoom [1, 1, 1, 1])] := by
  refine ⟨⟨_, rfl, rfl, rfl, rfl⟩, rfl⟩

/-! ## C8: JoinRoomSuccess payload -/

/-- C8 (amended): whenever a join succeeds, the JoinRoomSuccess response
is the first frame written to the joiner and its Bytes payload is RoomID,
video StreamID, RoomID again, audio StreamID — the audio part is always
present — for a total of 2(|RoomID| + |StreamID|) bytes, i.e. 16 with the
4-byte reference identifiers, not |RoomID| + |StreamID| = 8. -/
theorem join_room_success_payload (username vsid asid : List Nat)
    (room_map : List (RoomID × Room)) (tx_users : List Username)
    (room_name : List Nat) (cur : Option (StreamID × StreamID))
    (rid : RoomID) (rm' : List (RoomID × Room)) (ov oa : List StreamID)
    (ou : List Username)
    (htrim : (trimAscii room_name).isEmpty = false)
    (hscan : joinScan room_name username vsid asid room_map
      = some (rid, rm', ov, oa, ou)) :
    (handle_join_room username vsid asid room_map tx_users room_name
        cur).stream_writes.head?
      = some (.bytes .joinRoomSuccess (rid ++ vsid ++ rid ++ asid)) ∧
    ((rid ++ vsid ++ rid ++ asid).length
      = rid.length + vsid.length + rid.length + asid.length) ∧
    (rid.length = RID_LEN → vsid.length = SID_LEN → asid.length = SID_LEN →
      (rid ++ vsid ++ rid ++ asid).length = 2 * (RID_LEN + SID_LEN)) := by
  unfold handle_join_room
  rw [if_neg (by simp [htrim]), hscan]
  refine ⟨rfl, by simp; omega, ?_⟩
  intro hr hv ha
  simp [hr, hv, ha]
  omega

/-- C8 counterexample to the unamended claim: alice joins the empty room
"l" as its first member; the JoinRoomSuccess payload is
RoomID(4) video-SID(4) RoomID(4) audio-SID(4), 16 bytes, not
RID_LEN + SID_LEN = 8. -/
theorem join_room_success_payload_cex :
    (handle_join_room [97] [1, 1, 1, 1] [2, 2, 2, 2]
        [([9, 9, 9, 9], ⟨[108], [], [], []⟩)] [] [108] none).stream_writes
      = [.bytes .joinRoomSuccess
          [9, 9, 9, 9, 1, 1, 1, 1, 9, 9, 9, 9, 2, 2, 2, 2]] ∧
    ([9, 9, 9, 9, 1, 1, 1, 1, 9, 9, 9, 9, 2, 2, 2, 2] : List Nat).length = 16 ∧
    RID_LEN + SID_LEN = 8 := by
  refine ⟨rfl, rfl, rfl⟩

/-- C8 witness: the amended payload theorem applied at the concrete
first-member join of the counterexample scenario. -/
theorem join_room_success_payload_witness :
    (handle_join_room [97] [1, 1, 1, 1] [2, 2, 2, 2]
        [([9, 9, 9, 9], ⟨[108], [], [], []⟩)] [] [108] none).stream_writes.head?
      = some (.bytes .joinRoomSuccess
          ([9, 9, 9, 9] ++ [1, 1, 1, 1] ++ [9, 9, 9, 9] ++ [2, 2, 2, 2])) ∧
    (([9, 9, 9, 9] ++ [1, 1, 1, 1] ++ [9, 9, 9, 9] ++ [2, 2, 2, 2] : List Nat).length
      = [9, 9, 9, 9].length + [1, 1, 1, 1].length + [9, 9, 9, 9].length
        + [2, 2, 2, 2].length) ∧
    (([9, 9, 9, 9] : List Nat).length = RID_LEN → ([1, 1, 1, 1] : List Nat).length = SID_LEN →
      ([2, 2, 2, 2] : List Nat).length = SID_LEN →
      ([9, 9, 9, 9] ++ [1, 1, 1, 1] ++ [9, 9, 9, 9] ++ [2, 2, 2, 2] : List Nat).length
        = 2 * (RID_LEN + SID_LEN)) :=
  join_room_success_payload [97] [1, 1, 1, 1] [2, 2, 2, 2]
    [([9, 9, 9, 9], ⟨[108], [], [], []⟩)] [] [108] none
    [9, 9, 9, 9] [([9, 9, 9, 9],
      ⟨[108], [([1, 1, 1, 1], none)], [([2, 2, 2, 2], none)], [[97]]⟩)]
    [] [] [] rfl rfl

/-! ## C7: per-source rate limiter -/

theorem run_rate_in_window (addr : Addr) (t0 : Nat) :
    ∀ (ts : List Nat) (clients : List (Addr × ClientStats)) (ls k : Nat),
      alookup addr clients = some ⟨ls, k, t0⟩ →
      (∀ t ∈ ts, t - t0 < RATE_LIMIT_WINDOW) →
      (run_rate_limiter clients addr ts).1 =
        (List.range ts.length).map
          (fun i => decide (k + i + 1 ≤ MAX_PACKETS_PER_SECOND)) := by
  intro ts
  induction ts with
  | nil =>
    intro clients ls k _ _
    rfl
  | cons t ts ih =>
    intro clients ls k hc hw
    have hwt : ¬ RATE_LIMIT_WINDOW ≤ t - t0 := by
      have := hw t (by simp)
      omega
    have e : check_rate_limit clients addr t =
        (alinsert addr ⟨t, k + 1, t0⟩ clients,
          decide (k + 1 ≤ MAX_PACKETS_PER_SECOND)) := by
      simp [check_rate_limit, hc, hwt]
    have hrest := ih (alinsert addr ⟨t, k + 1, t0⟩ clients) t (k + 1)
      (alookup_alinsert_self addr _ clients) (fun t' ht' => hw t' (by simp [ht']))
    simp only [run_rate_limiter, e, hrest, List.length_cons]
    rw [List.range_succ_eq_map]
    simp only [List.map_cons, List.map_map]
    congr 1
    simp only [Function.comp, List.map_inj_left, List.mem_range, decide_eq_decide]
    intro a _
    omega

/-- C7: for a source first seen at time t0 whose packets all arrive within
the 1-second window starting at t0, exactly the first 5,000 calls of the
rate limiter pass and every later call in the window fails (the i-th
verdict, 0-based, is i < 5000); the window resets lazily: on the first
call at least 1s after the recorded window start the counter restarts at 1
and the packet passes; and a sufficiently long datagram whose rate check
fails is dropped by handle_packet and counted in packets_dropped.  (The
relay runs the limiter only for datagrams of at least MIN_PACKET_SIZE
bytes: shorter ones return before the check.) -/
theorem rate_limiter_cap :
    (∀ (t0 : Nat) (ts : List Nat) (clients : List (Addr × ClientStats)) (addr : Addr),
      alookup addr clients = none →
      (∀ t ∈ ts, t - t0 < RATE_LIMIT_WINDOW) →
      (run_rate_limiter clients addr (t0 :: ts)).1 =
        (List.range (ts.length + 1)).map
          (fun i => decide (i < MAX_PACKETS_PER_SECOND))) ∧
    (∀ (clients : List (Addr × ClientStats)) (addr : Addr) (now : Nat)
        (c : ClientStats), alookup addr clients = some c →
      RATE_LIMIT_WINDOW ≤ now - c.rate_window_start →
      check_rate_limit clients addr now
        = (alinsert addr ⟨now, 1, now⟩ clients, true)) ∧
    (∀ (st : UdpHandlerState) (buf : List Nat) (from_addr : Addr) (now : Nat),
      MIN_PACKET_SIZE ≤ buf.length →
      (check_rate_limit st.client_stats from_addr now).2 = false →
      (handle_packet st buf from_addr now).action = .droppedRateLimited ∧
      (handle_packet st buf from_addr now).state.packets_dropped
        = st.packets_dropped + 1) := by
  refine ⟨?_, ?_, ?_⟩
  · intro t0 ts clients addr hnone hw
    have e : check_rate_limit clients addr t0
        = (alinsert addr ⟨t0, 1, t0⟩ clients, true) := by
      simp [check_rate_limit, hnone, RATE_LIMIT_WINDOW, MAX_PACKETS_PER_SECOND]
    have hrest := run_rate_in_window addr t0 ts
      (alinsert addr ⟨t0, 1, t0⟩ clients) t0 1
      (alookup_alinsert_self addr _ clients) hw
    simp only [run_rate_limiter, e, hrest]
    rw [List.range_succ_eq_map]
    simp only [List.map_cons, List.map_map]
    congr 1
    simp only [Function.comp, List.map_inj_left, List.mem_range, decide_eq_decide]
    intro a _
    omega
  · intro clients addr now c hc hw
    simp [check_rate_limit, hc, hw, MAX_PACKETS_PER_SECOND]
  · intro st buf from_addr now hlen hrl
    unfold handle_packet
    rw [if_neg (by omega)]
    simp [hrl]

/-- C7 witness: the sequence theorem at a fresh source sending at times
0, 1, 2 (all three pass); the lazy reset at a source whose window started
at 0 with 5,000 packets counted, arriving again at time 1000 (counter
restarts at 1, packet passes); and a 9-byte datagram from a source already
at 5,000 packets mid-window, dropped and counted by handle_packet. -/
theorem rate_limiter_cap_witness :
    ((run_rate_limiter [] 7 (0 :: [1, 2])).1 =
      (List.range ([1, 2].length + 1)).map
        (fun i => decide (i < MAX_PACKETS_PER_SECOND))) ∧
    (check_rate_limit [(7, ⟨0, 5000, 0⟩)] 7 1000
      = (alinsert 7 ⟨1000, 1, 1000⟩ [(7, ⟨0, 5000, 0⟩)], true)) ∧
    ((handle_packet ⟨[], [(7, ⟨0, 5000, 0⟩)], ⟨[], 0⟩, 0, 0, 0⟩
        [0, 0, 0, 0, 0, 0, 0, 0, 0] 7 5).action = .droppedRateLimited ∧
      (handle_packet ⟨[], [(7, ⟨0, 5000, 0⟩)], ⟨[], 0⟩, 0, 0, 0⟩
        [0, 0, 0, 0, 0, 0, 0, 0, 0] 7 5).state.packets_dropped = 0 + 1) :=
  ⟨rate_limiter_cap.1 0 [1, 2] [] 7 (by decide) (by decide),
   rate_limiter_cap.2.1 [(7, ⟨0, 5000, 0⟩)] 7 1000 ⟨0, 5000, 0⟩ (by decide)
     (by decide),
   rate_limiter_cap.2.2 ⟨[], [(7, ⟨0, 5000, 0⟩)], ⟨[], 0⟩, 0, 0, 0⟩
     [0, 0, 0, 0, 0, 0, 0, 0, 0] 7 5 (by decide) (by decide)⟩

/-! ## C1 and C4: relay forwarding and address learning -/

theorem collectOthers_mem (m : List (StreamID × Option Addr)) (sid : StreamID)
    (a : Addr) :
    a ∈ collectOthers m sid ↔ ∃ s, (s, some a) ∈ m ∧ s ≠ sid := by
  unfold collectOthers
  rw [List.mem_filterMap]
  constructor
  · rintro ⟨⟨s, o⟩, hm, hf⟩
    by_cases h : s = sid
    · simp [h] at hf
    · simp only [h, if_false] at hf
      exact ⟨s, by simpa [hf] using hm, h⟩
  · rintro ⟨s, hm, hs⟩
    exact ⟨(s, some a), hm, by simp [hs]⟩

theorem udpForward_room_map (st : UdpHandlerState) (to_addrs : List Addr)
    (payload : List Nat) (now : Nat) :
    (udpForward st to_addrs payload now).state.room_map = st.room_map := by
  unfold udpForward
  split_ifs <;> try rfl
  dsimp only
  split <;> rfl

theorem udpForward_deliveries (st : UdpHandlerState) (to_addrs : List Addr)
    (payload : List Nat) (now : Nat)
    (hb : st.packet_batch.packets.length < BACKPRESSURE_THRESHOLD) :
    (udpForward st to_addrs payload now).action.deliveries =
      if to_addrs.isEmpty then [] else [(payload, to_addrs)] := by
  unfold udpForward
  by_cases he : to_addrs.isEmpty
  · rw [if_pos he, if_pos he]
    rfl
  · rw [if_neg he, if_neg (by omega), if_neg he]
    by_cases h3 : to_addrs.length ≤ 3
    · rw [if_pos h3]
      rfl
    · rw [if_neg h3]
      dsimp only
      split <;> rfl

theorem payload_strip (buf : List Nat) :
    (buf.drop RID_LEN).take SID_LEN ++ buf.drop (RID_LEN + SID_LEN)
      = buf.drop RID_LEN := by
  have h : (buf.drop RID_LEN).drop SID_LEN = buf.drop (RID_LEN + SID_LEN) := by
    rw [List.drop_drop, Nat.add_comm]
  rw [← h, List.take_append_drop]

theorem learnAddr_preserves {m : List (StreamID × Option Addr)} {sid' : StreamID}
    {a : Addr} (sid : StreamID) (addr : Addr)
    (h : alookup sid' m = some (some a)) :
    alookup sid' (learnAddr m sid addr) = some (some a) := by
  unfold learnAddr
  split
  · rename_i heq
    by_cases he : sid' = sid
    · subst he
      rw [h] at heq
      exact absurd heq (by simp)
    · rw [alookup_alset_ne _ _ he]
      exact h
  all_goals exact h

theorem applyLearning_false (room_map : List (RoomID × Room)) (rid : RoomID)
    (sid : StreamID) (kind : MapKind) (from_addr : Addr) :
    applyLearning room_map rid sid kind from_addr false = room_map := rfl

theorem needsUpdate_of_some {m : List (StreamID × Option Addr)} {sid : StreamID}
    {a : Addr} (h : alookup sid m = some (some a)) :
    needsUpdate m sid = false := by
  unfold needsUpdate
  rw [h]

theorem applyLearning_preserves {room_map : List (RoomID × Room)} {rid : RoomID}
    {sid : StreamID} (kind : MapKind) (from_addr : Addr) (nu : Bool)
    {rid' : RoomID} {room' : Room}
    (hroom : alookup rid' room_map = some room') :
    ∃ room'',
      alookup rid' (applyLearning room_map rid sid kind from_addr nu) = some room''
        ∧ (∀ sid' a, alookup sid' room'.video_stream_id_to_socket_addr = some (some a) →
            alookup sid' room''.video_stream_id_to_socket_addr = some (some a))
        ∧ (∀ sid' a, alookup sid' room'.audio_stream_id_to_socket_addr = some (some a) →
            alookup sid' room''.audio_stream_id_to_socket_addr = some (some a)) := by
  cases nu with
  | false => exact ⟨room', hroom, fun _ _ h => h, fun _ _ h => h⟩
  | true =>
    unfold applyLearning
    rw [if_pos rfl]
    match h1 : alookup rid room_map with
    | none =>
      simp only [h1]
      exact ⟨room', hroom, fun _ _ h => h, fun _ _ h => h⟩
    | some room0 =>
      simp only [h1]
      cases kind with
      | video =>
        rw [alookup_alset_self _ h1]
        by_cases hr : rid' = rid
        · subst hr
          rw [hroom] at h1
          obtain rfl : room' = room0 := Option.some.inj h1
          refine ⟨_, alookup_alset_self _ (alookup_alset_self _ hroom), ?_, ?_⟩
          · intro sid' a h
            exact learnAddr_preserves sid from_addr (learnAddr_preserves sid from_addr h)
          · intro sid' a h
            exact h
        · rw [alookup_alset_ne _ _ hr, alookup_alset_ne _ _ hr]
          exact ⟨room', hroom, fun _ _ h => h, fun _ _ h => h⟩
      | audio =>
        rw [alookup_alset_self _ h1]
        by_cases hr : rid' = rid
        · subst hr
          rw [hroom] at h1
          obtain rfl : room' = room0 := Option.some.inj h1
          refine ⟨_, alookup_alset_self _ (alookup_alset_self _ hroom), ?_, ?_⟩
          · intro sid' a h
            exact learnAddr_preserves sid from_addr h
          · intro sid' a h
            exact learnAddr_preserves sid from_addr h
        · rw [alookup_alset_ne _ _ hr, alookup_alset_ne _ _ hr]
          exact ⟨room', hroom, fun _ _ h => h, fun _ _ h => h⟩

theorem applyLearning_sets_video {room_map : List (RoomID × Room)} {rid : RoomID}
    {sid : StreamID} {from_addr : Addr} {room : Room}
    (hroom : alookup rid room_map = some room)
    (hnone : alookup sid room.video_stream_id_to_socket_addr = some none) :
    ∃ room'',
      alookup rid (applyLearning room_map rid sid .video from_addr true) = some room''
        ∧ alookup sid room''.video_stream_id_to_socket_addr = some (some from_addr) := by
  unfold applyLearning
  rw [if_pos rfl]
  simp only [hroom]
  rw [alookup_alset_self _ hroom]
  refine ⟨_, alookup_alset_self _ (alookup_alset_self _ hroom), ?_⟩
  show alookup sid (learnAddr (learnAddr room.video_stream_id_to_socket_addr sid
    from_addr) sid from_addr) = some (some from_addr)
  have h1 : learnAddr room.video_stream_id_to_socket_addr sid from_addr
      = alset sid (some from_addr) room.video_stream_id_to_socket_addr := by
    unfold learnAddr
    rw [hnone]
  have h2 : alookup sid (alset sid (some from_addr)
      room.video_stream_id_to_socket_addr) = some (some from_addr) :=
    alookup_alset_self _ hnone
  rw [h1]
  unfold learnAddr
  rw [h2]
  exact h2

theorem applyLearning_sets_audio {room_map : List (RoomID × Room)} {rid : RoomID}
    {sid : StreamID} {from_addr : Addr} {room : Room}
    (hroom : alookup rid room_map = some room)
    (hnone : alookup sid room.audio_stream_id_to_socket_addr = some none)
    (hnv : alookup sid room.video_stream_id_to_socket_addr = none) :
    ∃ room'',
      alookup rid (applyLearning room_map rid sid .audio from_addr true) = some room''
        ∧ alookup sid room''.audio_stream_id_to_socket_addr = some (some from_addr)
        ∧ room''.video_stream_id_to_socket_addr
            = room.video_stream_id_to_socket_addr := by
  unfold applyLearning
  rw [if_pos rfl]
  simp only [hroom]
  rw [alookup_alset_self _ hroom]
  refine ⟨_, alookup_alset_self _ (alookup_alset_self _ hroom), ?_, ?_⟩
  · show alookup sid (learnAddr room.audio_stream_id_to_socket_addr sid from_addr)
      = some (some from_addr)
    unfold learnAddr
    rw [hnone]
    exact alookup_alset_self _ hnone
  · show learnAddr room.video_stream_id_to_socket_addr sid from_addr
      = room.video_stream_id_to_socket_addr
    unfold learnAddr
    rw [hnv]

theorem needsUpdate_of_none {m : List (StreamID × Option Addr)} {sid : StreamID}
    (h : alookup sid m = some none) : needsUpdate m sid = true := by
  unfold needsUpdate
  rw [h]

theorem acontains_of_some {m : List (StreamID × Option Addr)} {sid : StreamID}
    {v : Option Addr} (h : alookup sid m = some v) : acontains sid m = true := by
  unfold acontains
  rw [h]
  rfl

theorem handle_packet_known_video (st : UdpHandlerState) (buf : List Nat)
    (from_addr : Addr) (now : Nat) (room : Room)
    (hlen : MIN_PACKET_SIZE ≤ buf.length)
    (hrl : (check_rate_limit st.client_stats from_addr now).2 = true)
    (hroom : alookup (buf.take RID_LEN) st.room_map = some room)
    (hvid : acontains ((buf.drop RID_LEN).take SID_LEN)
      room.video_stream_id_to_socket_addr = true) :
    handle_packet st buf from_addr now =
      udpForward
        { room_map := applyLearning st.room_map (buf.take RID_LEN)
            ((buf.drop RID_LEN).take SID_LEN) .video from_addr
            (needsUpdate room.video_stream_id_to_socket_addr
              ((buf.drop RID_LEN).take SID_LEN)),
          client_stats := (check_rate_limit st.client_stats from_addr now).1,
          packet_batch := st.packet_batch,
          packets_received := st.packets_received + 1,
          packets_forwarded := st.packets_forwarded,
          packets_dropped := st.packets_dropped }
        (collectOthers room.video_stream_id_to_socket_addr
          ((buf.drop RID_LEN).take SID_LEN))
        (buf.drop RID_LEN) now := by
  unfold handle_packet
  rw [if_neg (by omega)]
  simp only [hrl, Bool.not_true, Bool.false_eq_true, if_false, hroom, hvid, if_true,
    payload_strip]

theorem handle_packet_known_audio (st : UdpHandlerState) (buf : List Nat)
    (from_addr : Addr) (now : Nat) (room : Room)
    (hlen : MIN_PACKET_SIZE ≤ buf.length)
    (hrl : (check_rate_limit st.client_stats from_addr now).2 = true)
    (hroom : alookup (buf.take RID_LEN) st.room_map = some room)
    (hnv : acontains ((buf.drop RID_LEN).take SID_LEN)
      room.video_stream_id_to_socket_addr = false)
    (haud : acontains ((buf.drop RID_LEN).take SID_LEN)
      room.audio_stream_id_to_socket_addr = true) :
    handle_packet st buf from_addr now =
      udpForward
        { room_map := applyLearning st.room_map (buf.take RID_LEN)
            ((buf.drop RID_LEN).take SID_LEN) .audio from_addr
            (needsUpdate room.audio_stream_id_to_socket_addr
              ((buf.drop RID_LEN).take SID_LEN)),
          client_stats := (check_rate_limit st.client_stats from_addr now).1,
          packet_batch := st.packet_batch,
          packets_received := st.packets_received + 1,
          packets_forwarded := st.packets_forwarded,
          packets_dropped := st.packets_dropped }
        (collectOthers room.audio_stream_id_to_socket_addr
          ((buf.drop RID_LEN).take SID_LEN))
        (buf.drop RID_LEN) now := by
  unfold handle_packet
  rw [if_neg (by omega)]
  simp only [hrl, Bool.not_true, Bool.false_eq_true, if_false, hroom, hnv, haud,
    if_true, payload_strip]

theorem handle_packet_room_map_shape (st : UdpHandlerState) (buf : List Nat)
    (from_addr : Addr) (now : Nat) :
    (handle_packet st buf from_addr now).state.room_map = st.room_map ∨
    ∃ kind nu, (handle_packet st buf from_addr now).state.room_map =
      applyLearning st.room_map (buf.take RID_LEN)
        ((buf.drop RID_LEN).take SID_LEN) kind from_addr nu := by
  by_cases h0 : buf.length < MIN_PACKET_SIZE
  · left
    unfold handle_packet
    rw [if_pos h0]
  · by_cases hrl : (check_rate_limit st.client_stats from_addr now).2 = true
    · match h1 : alookup (buf.take RID_LEN) st.room_map with
      | none =>
        left
        unfold handle_packet
        rw [if_neg h0]
        simp only [hrl, Bool.not_true, Bool.false_eq_true, if_false, h1]
      | some room =>
        by_cases hv : acontains ((buf.drop RID_LEN).take SID_LEN)
            room.video_stream_id_to_socket_addr = true
        · right
          refine ⟨.video, needsUpdate room.video_stream_id_to_socket_addr
            ((buf.drop RID_LEN).take SID_LEN), ?_⟩
          rw [handle_packet_known_video st buf from_addr now room (by omega) hrl h1 hv]
          rw [udpForward_room_map]
        · by_cases ha : acontains ((buf.drop RID_LEN).take SID_LEN)
              room.audio_stream_id_to_socket_addr = true
          · right
            refine ⟨.audio, needsUpdate room.audio_stream_id_to_socket_addr
              ((buf.drop RID_LEN).take SID_LEN), ?_⟩
            rw [handle_packet_known_audio st buf from_addr now room (by omega) hrl
              h1 (by simpa using hv) ha]
            rw [udpForward_room_map]
          · left
            unfold handle_packet
            rw [if_neg h0]
            simp only [hrl, Bool.not_true, Bool.false_eq_true, if_false, h1,
              Bool.not_eq_true] at *
            simp only [h1, hv, ha, Bool.false_eq_true, if_false]
    · left
      unfold handle_packet
      rw [if_neg h0]
      simp only [Bool.not_eq_true] at hrl
      simp only [hrl, Bool.not_false, if_true]

/-- C1: every datagram shorter than RID_LEN + SID_LEN + 1 bytes is dropped
with no forward; a datagram whose RoomID has no room or whose StreamID is
in neither stream table of its room is never forwarded; and a
sufficiently long datagram that passes the rate limiter while the batch
is below the back-pressure threshold, whose RoomID and StreamID resolve
(video table first, then audio), is forwarded — immediately or through
the batch — with payload StreamID ++ media_payload (RoomID stripped) to
exactly the addresses of the other StreamIDs of the matched table whose
address is known (and to nobody when none is known); the membership
characterization shows the sender's own StreamID is never a
destination. -/
theorem relay_forwarding :
    (∀ (st : UdpHandlerState) (buf : List Nat) (from_addr : Addr) (now : Nat),
      buf.length < MIN_PACKET_SIZE →
      (handle_packet st buf from_addr now).action = .droppedShort) ∧
    (∀ (st : UdpHandlerState) (buf : List Nat) (from_addr : Addr) (now : Nat),
      (∀ room, alookup (buf.take RID_LEN) st.room_map = some room →
        acontains ((buf.drop RID_LEN).take SID_LEN)
            room.video_stream_id_to_socket_addr = false ∧
          acontains ((buf.drop RID_LEN).take SID_LEN)
            room.audio_stream_id_to_socket_addr = false) →
      (handle_packet st buf from_addr now).action.deliveries = []) ∧
    (∀ (st : UdpHandlerState) (buf : List Nat) (from_addr : Addr) (now : Nat)
        (room : Room),
      MIN_PACKET_SIZE ≤ buf.length →
      (check_rate_limit st.client_stats from_addr now).2 = true →
      st.packet_batch.packets.length < BACKPRESSURE_THRESHOLD →
      alookup (buf.take RID_LEN) st.room_map = some room →
      acontains ((buf.drop RID_LEN).take SID_LEN)
        room.video_stream_id_to_socket_addr = true →
      (handle_packet st buf from_addr now).action.deliveries =
        (if (collectOthers room.video_stream_id_to_socket_addr
            ((buf.drop RID_LEN).take SID_LEN)).isEmpty then []
         else [((buf.drop RID_LEN).take SID_LEN ++ buf.drop (RID_LEN + SID_LEN),
           collectOthers room.video_stream_id_to_socket_addr
             ((buf.drop RID_LEN).take SID_LEN))])) ∧
    (∀ (st : UdpHandlerState) (buf : List Nat) (from_addr : Addr) (now : Nat)
        (room : Room),
      MIN_PACKET_SIZE ≤ buf.length →
      (check_rate_limit st.client_stats from_addr now).2 = true →
      st.packet_batch.packets.length < BACKPRESSURE_THRESHOLD →
      alookup (buf.take RID_LEN) st.room_map = some room →
      acontains ((buf.drop RID_LEN).take SID_LEN)
        room.video_stream_id_to_socket_addr = false →
      acontains ((buf.drop RID_LEN).take SID_LEN)
        room.audio_stream_id_to_socket_addr = true →
      (handle_packet st buf from_addr now).action.deliveries =
        (if (collectOthers room.audio_stream_id_to_socket_addr
            ((buf.drop RID_LEN).take SID_LEN)).isEmpty then []
         else [((buf.drop RID_LEN).take SID_LEN ++ buf.drop (RID_LEN + SID_LEN),
           collectOthers room.audio_stream_id_to_socket_addr
             ((buf.drop RID_LEN).take SID_LEN))])) ∧
    (∀ (m : List (StreamID × Option Addr)) (sid : StreamID) (a : Addr),
      a ∈ collectOthers m sid ↔ ∃ s, (s, some a) ∈ m ∧ s ≠ sid) := by
  refine ⟨?_, ?_, ?_, ?_, collectOthers_mem⟩
  · intro st buf from_addr now h0
    unfold handle_packet
    rw [if_pos h0]
  · intro st buf from_addr now h
    by_cases h0 : buf.length < MIN_PACKET_SIZE
    · unfold handle_packet
      rw [if_pos h0]
      rfl
    · by_cases hrl : (check_rate_limit st.client_stats from_addr now).2 = true
      · match h1 : alookup (buf.take RID_LEN) st.room_map with
        | none =>
          unfold handle_packet
          rw [if_neg h0]
          simp only [hrl, Bool.not_true, Bool.false_eq_true, if_false, h1]
          rfl
        | some room =>
          obtain ⟨hv, ha⟩ := h room h1
          unfold handle_packet
          rw [if_neg h0]
          simp only [hrl, Bool.not_true, Bool.false_eq_true, if_false, h1, hv, ha]
          rfl
      · unfold handle_packet
        rw [if_neg h0]
        simp only [Bool.not_eq_true] at hrl
        simp only [hrl, Bool.not_false, if_true]
        rfl
  · intro st buf from_addr now room hlen hrl hb hroom hvid
    rw [handle_packet_known_video st buf from_addr now room hlen hrl hroom hvid]
    rw [udpForward_deliveries _ _ _ _ (by simpa using hb), payload_strip]
  · intro st buf from_addr now room hlen hrl hb hroom hnv haud
    rw [handle_packet_known_audio st buf from_addr now room hlen hrl hroom hnv haud]
    rw [udpForward_deliveries _ _ _ _ (by simpa using hb), payload_strip]

/-- C1 witness: the concrete relay-forward scenario of the spec. Room 9999
holds StreamIDs 1111 (alice, address not yet learned) and 2222 (bob,
address 22); alice's datagram 9999 1111 AA BB from address 11 is forwarded
as 1111 AA BB exactly to address 22; a 3-byte datagram is dropped short;
and a datagram with an unknown RoomID yields no deliveries. -/
theorem relay_forwarding_witness :
    ((handle_packet
        ⟨[([9, 9, 9, 9], ⟨[108], [([1, 1, 1, 1], none), ([2, 2, 2, 2], some 22)],
          [], [[97], [98]]⟩)], [], ⟨[], 0⟩, 0, 0, 0⟩
        ([9, 9, 9, 9] ++ [1, 1, 1, 1] ++ [170, 187]) 11 0).action.deliveries =
      (if (collectOthers [([1, 1, 1, 1], none), ([2, 2, 2, 2], some 22)]
          ((([9, 9, 9, 9] ++ [1, 1, 1, 1] ++ [170, 187]).drop RID_LEN).take SID_LEN)).isEmpty
       then []
       else [(((([9, 9, 9, 9] ++ [1, 1, 1, 1] ++ [170, 187]).drop RID_LEN).take SID_LEN
           ++ ([9, 9, 9, 9] ++ [1, 1, 1, 1] ++ [170, 187]).drop (RID_LEN + SID_LEN)),
         collectOthers [([1, 1, 1, 1], none), ([2, 2, 2, 2], some 22)]
           ((([9, 9, 9, 9] ++ [1, 1, 1, 1] ++ [170, 187]).drop RID_LEN).take SID_LEN))])) ∧
    ((handle_packet ⟨[], [], ⟨[], 0⟩, 0, 0, 0⟩ [1, 2, 3] 11 0).action
      = .droppedShort) ∧
    ((handle_packet ⟨[], [], ⟨[], 0⟩, 0, 0, 0⟩
        [9, 9, 9, 9, 1, 1, 1, 1, 170] 11 0).action.deliveries = []) :=
  ⟨relay_forwarding.2.2.1
      ⟨[([9, 9, 9, 9], ⟨[108], [([1, 1, 1, 1], none), ([2, 2, 2, 2], some 22)],
        [], [[97], [98]]⟩)], [], ⟨[], 0⟩, 0, 0, 0⟩
      ([9, 9, 9, 9] ++ [1, 1, 1, 1] ++ [170, 187]) 11 0
      ⟨[108], [([1, 1, 1, 1], none), ([2, 2, 2, 2], some 22)], [], [[97], [98]]⟩
      (by decide) (by decide) (by decide) (by decide) (by decide),
   relay_forwarding.1 ⟨[], [], ⟨[], 0⟩, 0, 0, 0⟩ [1, 2, 3] 11 0 (by decide),
   relay_forwarding.2.1 ⟨[], [], ⟨[], 0⟩, 0, 0, 0⟩ [9, 9, 9, 9, 1, 1, 1, 1, 170]
     11 0 (fun room h => absurd h (by simp [alookup]))⟩

/-- C4: once a StreamID's address is learned it is never overwritten or
cleared by any later datagram — every already-present address in any
room's video or audio table survives every handle_packet call unchanged —
the address is set to the sender's address by the first valid datagram
carrying that StreamID (entry still absent: the matched table's entry
becomes the sender's address), and a valid datagram carrying an
already-learned StreamID, from any address, leaves the whole room
registry unchanged while still producing exactly the normal fan-out. -/
theorem address_learning :
    (∀ (st : UdpHandlerState) (buf : List Nat) (from_addr : Addr) (now : Nat)
        (rid' : RoomID) (room' : Room),
      alookup rid' st.room_map = some room' →
      ∃ room'',
        alookup rid' (handle_packet st buf from_addr now).state.room_map
            = some room''
          ∧ (∀ sid' a,
              alookup sid' room'.video_stream_id_to_socket_addr = some (some a) →
              alookup sid' room''.video_stream_id_to_socket_addr = some (some a))
          ∧ (∀ sid' a,
              alookup sid' room'.audio_stream_id_to_socket_addr = some (some a) →
              alookup sid' room''.audio_stream_id_to_socket_addr = some (some a))) ∧
    (∀ (st : UdpHandlerState) (buf : List Nat) (from_addr : Addr) (now : Nat)
        (room : Room),
      MIN_PACKET_SIZE ≤ buf.length →
      (check_rate_limit st.client_stats from_addr now).2 = true →
      alookup (buf.take RID_LEN) st.room_map = some room →
      alookup ((buf.drop RID_LEN).take SID_LEN)
          room.video_stream_id_to_socket_addr = some none →
      ∃ room'',
        alookup (buf.take RID_LEN)
            (handle_packet st buf from_addr now).state.room_map = some room''
          ∧ alookup ((buf.drop RID_LEN).take SID_LEN)
              room''.video_stream_id_to_socket_addr = some (some from_addr)) ∧
    (∀ (st : UdpHandlerState) (buf : List Nat) (from_addr : Addr) (now : Nat)
        (room : Room),
      MIN_PACKET_SIZE ≤ buf.length →
      (check_rate_limit st.client_stats from_addr now).2 = true →
      alookup (buf.take RID_LEN) st.room_map = some room →
      alookup ((buf.drop RID_LEN).take SID_LEN)
          room.video_stream_id_to_socket_addr = none →
      alookup ((buf.drop RID_LEN).take SID_LEN)
          room.audio_stream_id_to_socket_addr = some none →
      ∃ room'',
        alookup (buf.take RID_LEN)
            (handle_packet st buf from_addr now).state.room_map = some room''
          ∧ alookup ((buf.drop RID_LEN).take SID_LEN)
              room''.audio_stream_id_to_socket_addr = some (some from_addr)) ∧
    (∀ (st : UdpHandlerState) (buf : List Nat) (from_addr : Addr) (now : Nat)
        (room : Room) (a : Addr),
      MIN_PACKET_SIZE ≤ buf.length →
      (check_rate_limit st.client_stats from_addr now).2 = true →
      alookup (buf.take RID_LEN) st.room_map = some room →
      alookup ((buf.drop RID_LEN).take SID_LEN)
          room.video_stream_id_to_socket_addr = some (some a) →
      (handle_packet st buf from_addr now).state.room_map = st.room_map ∧
      (st.packet_batch.packets.length < BACKPRESSURE_THRESHOLD →
        (handle_packet st buf from_addr now).action.deliveries =
          (if (collectOthers room.video_stream_id_to_socket_addr
              ((buf.drop RID_LEN).take SID_LEN)).isEmpty then []
           else [((buf.drop RID_LEN).take SID_LEN ++ buf.drop (RID_LEN + SID_LEN),
             collectOthers room.video_stream_id_to_socket_addr
               ((buf.drop RID_LEN).take SID_LEN))]))) ∧
    (∀ (st : UdpHandlerState) (buf : List Nat) (from_addr : Addr) (now : Nat)
        (room : Room) (a : Addr),
      MIN_PACKET_SIZE ≤ buf.length →
      (check_rate_limit st.client_stats from_addr now).2 = true →
      alookup (buf.take RID_LEN) st.room_map = some room →
      acontains ((buf.drop RID_LEN).take SID_LEN)
          room.video_stream_id_to_socket_addr = false →
      alookup ((buf.drop RID_LEN).take SID_LEN)
          room.audio_stream_id_to_socket_addr = some (some a) →
      (handle_packet st buf from_addr now).state.room_map = st.room_map ∧
      (st.packet_batch.packets.length < BACKPRESSURE_THRESHOLD →
        (handle_packet st buf from_addr now).action.deliveries =
          (if (collectOthers room.audio_stream_id_to_socket_addr
              ((buf.drop RID_LEN).take SID_LEN)).isEmpty then []
           else [((buf.drop RID_LEN).take SID_LEN ++ buf.drop (RID_LEN + SID_LEN),
             collectOthers room.audio_stream_id_to_socket_addr
               ((buf.drop RID_LEN).take SID_LEN))]))) := by
  refine ⟨?_, ?_, ?_, ?_, ?_⟩
  · intro st buf from_addr now rid' room' hroom
    rcases handle_packet_room_map_shape st buf from_addr now with h | ⟨kind, nu, h⟩
    · rw [h]
      exact ⟨room', hroom, fun _ _ hh => hh, fun _ _ hh => hh⟩
    · rw [h]
      exact applyLearning_preserves kind from_addr nu hroom
  · intro st buf from_addr now room hlen hrl hroom hnone
    rw [handle_packet_known_video st buf from_addr now room hlen hrl hroom
      (acontains_of_some hnone)]
    rw [udpForward_room_map]
    show ∃ room'', alookup (buf.take RID_LEN)
      (applyLearning st.room_map (buf.take RID_LEN)
        ((buf.drop RID_LEN).take SID_LEN) .video from_addr
        (needsUpdate room.video_stream_id_to_socket_addr
          ((buf.drop RID_LEN).take SID_LEN))) = some room'' ∧ _
    rw [needsUpdate_of_none hnone]
    exact applyLearning_sets_video hroom hnone
  · intro st buf from_addr now room hlen hrl hroom hnv hnone
    have hcv : acontains ((buf.drop RID_LEN).take SID_LEN)
        room.video_stream_id_to_socket_addr = false := by
      unfold acontains
      rw [hnv]
      rfl
    rw [handle_packet_known_audio st buf from_addr now room hlen hrl hroom hcv
      (acontains_of_some hnone)]
    rw [udpForward_room_map]
    show ∃ room'', alookup (buf.take RID_LEN)
      (applyLearning st.room_map (buf.take RID_LEN)
        ((buf.drop RID_LEN).take SID_LEN) .audio from_addr
        (needsUpdate room.audio_stream_id_to_socket_addr
          ((buf.drop RID_LEN).take SID_LEN))) = some room'' ∧ _
    rw [needsUpdate_of_none hnone]
    obtain ⟨room'', h1, h2, _⟩ := applyLearning_sets_audio hroom hnone hnv
    exact ⟨room'', h1, h2⟩
  · intro st buf from_addr now room a hlen hrl hroom hsome
    rw [handle_packet_known_video st buf from_addr now room hlen hrl hroom
      (acontains_of_some hsome)]
    rw [needsUpdate_of_some hsome]
    constructor
    · rw [udpForward_room_map]
      rfl
    · intro hb
      rw [udpForward_deliveries _ _ _ _ (by simpa using hb), payload_strip]
  · intro st buf from_addr now room a hlen hrl hroom hcv hsome
    rw [handle_packet_known_audio st buf from_addr now room hlen hrl hroom hcv
      (acontains_of_some hsome)]
    rw [needsUpdate_of_some hsome]
    constructor
    · rw [udpForward_room_map]
      rfl
    · intro hb
      rw [udpForward_deliveries _ _ _ _ (by simpa using hb), payload_strip]

/-- C4 witness: in room 9999 with video entries 1111 (unlearned) and 2222
(address 22), the first datagram 9999 1111 AA BB from address 11 sets
1111's address to 11; and with 1111 already learned at address 11, a
datagram carrying 1111 from the different address 77 keeps the registry
unchanged while still fanning out to address 22. -/
theorem address_learning_witness :
    (∃ room'',
      alookup (([9, 9, 9, 9] ++ [1, 1, 1, 1] ++ [170, 187]).take RID_LEN)
          ((handle_packet
            ⟨[([9, 9, 9, 9], ⟨[108], [([1, 1, 1, 1], none), ([2, 2, 2, 2], some 22)],
              [], [[97], [98]]⟩)], [], ⟨[], 0⟩, 0, 0, 0⟩
            ([9, 9, 9, 9] ++ [1, 1, 1, 1] ++ [170, 187]) 11 0).state.room_map)
          = some room''
        ∧ alookup ((([9, 9, 9, 9] ++ [1, 1, 1, 1] ++ [170, 187]).drop RID_LEN).take SID_LEN)
            room''.video_stream_id_to_socket_addr = some (some 11)) ∧
    ((handle_packet
        ⟨[([9, 9, 9, 9], ⟨[108], [([1, 1, 1, 1], some 11), ([2, 2, 2, 2], some 22)],
          [], [[97], [98]]⟩)], [], ⟨[], 0⟩, 0, 0, 0⟩
        ([9, 9, 9, 9] ++ [1, 1, 1, 1] ++ [170, 187]) 77 0).state.room_map
      = [([9, 9, 9, 9], ⟨[108], [([1, 1, 1, 1], some 11), ([2, 2, 2, 2], some 22)],
          [], [[97], [98]]⟩)]) :=
  ⟨address_learning.2.1
      ⟨[([9, 9, 9, 9], ⟨[108], [([1, 1, 1, 1], none), ([2, 2, 2, 2], some 22)],
        [], [[97], [98]]⟩)], [], ⟨[], 0⟩, 0, 0, 0⟩
      ([9, 9, 9, 9] ++ [1, 1, 1, 1] ++ [170, 187]) 11 0
      ⟨[108], [([1, 1, 1, 1], none), ([2, 2, 2, 2], some 22)], [], [[97], [98]]⟩
      (by decide) (by decide) (by decide) (by decide),
   (address_learning.2.2.2.1
      ⟨[([9, 9, 9, 9], ⟨[108], [([1, 1, 1, 1], some 11), ([2, 2, 2, 2], some 22)],
        [], [[97], [98]]⟩)], [], ⟨[], 0⟩, 0, 0, 0⟩
      ([9, 9, 9, 9] ++ [1, 1, 1, 1] ++ [170, 187]) 77 0
      ⟨[108], [([1, 1, 1, 1], some 11), ([2, 2, 2, 2], some 22)], [], [[97], [98]]⟩
      11 (by decide) (by decide) (by decide) (by decide)).1⟩

/-! ## C9: delta list serialization round-trip -/

theorem fromBE4_toBE4 {n : Nat} (h : n < 2 ^ 32) :
    fromBE4 (n / 2 ^ 24 % 256) (n / 2 ^ 16 % 256) (n / 2 ^ 8 % 256) (n % 256)
      = n := by
  unfold fromBE4
  have e24 : (2 : Nat) ^ 24 = 16777216 := by norm_num
  have e16 : (2 : Nat) ^ 16 = 65536 := by norm_num
  have e8 : (2 : Nat) ^ 8 = 256 := by norm_num
  have e32 : (2 : Nat) ^ 32 = 4294967296 := by norm_num
  rw [e24, e16, e8] at *
  rw [e32] at h
  omega

theorem readChunks_roundtrip :
    ∀ (ds : List DeltaChunk),
      (∀ d ∈ ds, d.offset < 2 ^ 32 ∧ d.data.length < 2 ^ 32) →
      readChunks ds.length
          (ds.flatMap (fun d => toBE4 d.offset ++ toBE4 d.data.length ++ d.data))
        = some ds := by
  intro ds
  induction ds with
  | nil => intro _; rfl
  | cons d ds ih =>
    intro h
    obtain ⟨hoff, hlen⟩ := h d (by simp)
    simp only [List.flatMap_cons, List.length_cons]
    show readChunks (ds.length + 1)
      ((toBE4 d.offset ++ toBE4 d.data.length ++ d.data) ++
        ds.flatMap (fun d => toBE4 d.offset ++ toBE4 d.data.length ++ d.data))
      = some (d :: ds)
    simp only [toBE4, List.cons_append, List.nil_append, readChunks, List.append_assoc]
    rw [fromBE4_toBE4 hoff, fromBE4_toBE4 hlen]
    rw [if_neg (by simp)]
    rw [List.take_left, List.drop_left]
    have ih' := ih (fun x hx => h x (by simp [hx]))
    simp only [toBE4, List.cons_append, List.nil_append] at ih'
    rw [ih']

/-- C9: for every list of delta chunks whose count, offsets and per-chunk
data lengths fit in u32 (offsets and lengths are u32 by type in the
source), deserialize_deltas applied to serialize_deltas_optimized's
output returns the same list: same chunk count, and chunk-for-chunk equal
offsets and data bytes in the same order. -/
theorem serialize_deltas_roundtrip (ds : List DeltaChunk)
    (hcount : ds.length < 2 ^ 32)
    (h : ∀ d ∈ ds, d.offset < 2 ^ 32 ∧ d.data.length < 2 ^ 32) :
    deserialize_deltas (serialize_deltas_optimized ds) = some ds := by
  unfold serialize_deltas_optimized deserialize_deltas
  simp only [toBE4, List.cons_append, List.nil_append]
  rw [fromBE4_toBE4 hcount]
  exact readChunks_roundtrip ds h

/-- C9 witness: the round-trip theorem at the two-chunk list
[(offset 2, bytes 9 9), (offset 700, no bytes)]. -/
theorem serialize_deltas_roundtrip_witness :
    deserialize_deltas (serialize_deltas_optimized [⟨2, [9, 9]⟩, ⟨700, []⟩])
      = some [⟨2, [9, 9]⟩, ⟨700, []⟩] :=
  serialize_deltas_roundtrip [⟨2, [9, 9]⟩, ⟨700, []⟩] (by decide) (by decide)

/-! ## C2: delta generation and application -/

theorem findDiff_ge (old new : List Nat) :
    ∀ fuel i, i ≤ findDiff old new fuel i := by
  intro fuel
  induction fuel with
  | zero => intro i; exact Nat.le_refl i
  | succ fuel ih =>
    intro i
    unfold findDiff
    split
    · exact Nat.le_trans (Nat.le_succ i) (ih (i + 1))
    · exact Nat.le_refl i

theorem findDiff_le (old new : List Nat) :
    ∀ fuel i, i ≤ new.length → findDiff old new fuel i ≤ new.length := by
  intro fuel
  induction fuel with
  | zero => intro i h; exact h
  | succ fuel ih =>
    intro i h
    unfold findDiff
    split
    · rename_i hc
      exact ih (i + 1) hc.1
    · exact h

theorem findDiff_eq (old new : List Nat) :
    ∀ fuel i j, i ≤ j → j < findDiff old new fuel i →
      old.getD j 0 = new.getD j 0 := by
  intro fuel
  induction fuel with
  | zero =>
    intro i j hij hj
    unfold findDiff at hj
    omega
  | succ fuel ih =>
    intro i j hij hj
    unfold findDiff at hj
    split at hj
    · rename_i hc
      rcases Nat.eq_or_lt_of_le hij with rfl | hlt
      · exact hc.2
      · exact ih (i + 1) j hlt hj
    · omega

theorem findEq_ge (old new : List Nat) :
    ∀ fuel i, i ≤ findEq old new fuel i := by
  intro fuel
  induction fuel with
  | zero => intro i; exact Nat.le_refl i
  | succ fuel ih =>
    intro i
    unfold findEq
    split
    · exact Nat.le_trans (Nat.le_succ i) (ih (i + 1))
    · exact Nat.le_refl i

theorem findEq_le (old new : List Nat) :
    ∀ fuel i, i ≤ new.length → findEq old new fuel i ≤ new.length := by
  intro fuel
  induction fuel with
  | zero => intro i h; exact h
  | succ fuel ih =>
    intro i h
    unfold findEq
    split
    · rename_i hc
      exact ih (i + 1) hc.1
    · exact h

theorem countIdentical_le (old new : List Nat) :
    ∀ la i, countIdentical old new i la ≤ la := by
  intro la
  induction la with
  | zero => intro i; exact Nat.le_refl 0
  | succ la ih =>
    intro i
    unfold countIdentical
    split
    · exact Nat.succ_le_succ (ih (i + 1))
    · exact Nat.zero_le _

theorem slice_length {l : List Nat} {a b : Nat} (ha : a ≤ b) (hb : b ≤ l.length) :
    (slice l a b).length = b - a := by
  unfold slice
  rw [List.length_take, List.length_drop]
  omega

theorem slice_getD {l : List Nat} {a b k : Nat} (hk : k < b - a) : 
    (slice l a b).getD k 0 = l.getD (a + k) 0 := by
  unfold slice
  rw [List.getD_eq_getElem?_getD, List.getD_eq_getElem?_getD,
    List.getElem?_take_of_lt hk, List.getElem?_drop]

theorem deltaLoop_sound (old new : List Nat) (thr : Nat) :
    ∀ fuel i total ds, deltaLoop old new thr fuel i total = some ds →
      ChunksFrom old new i ds := by
  intro fuel
  induction fuel with
  | zero =>
    intro i total ds h
    exact absurd h (by simp [deltaLoop])
  | succ fuel ih =>
    intro i total ds h
    unfold deltaLoop at h
    split at h
    · rename_i hge
      obtain rfl : ([] : List DeltaChunk) = ds := Option.some.inj h
      intro j hij hjl
      omega
    · rename_i hlt
      dsimp only at h
      split at h
      · rename_i hge2
        obtain rfl : ([] : List DeltaChunk) = ds := Option.some.inj h
        intro j hij hjl
        exact findDiff_eq old new (new.length + 1) i j hij (by omega)
      · rename_i hlt2
        set start := findDiff old new (new.length + 1) i with hstart
        set jj := findEq old new (new.length + 1) start with hjj
        set lookahead := min MIN_BLOCK_SIZE (new.length - jj) with hla
        set ic := countIdentical old new jj lookahead with hic
        set j2 := if ic < MIN_BLOCK_SIZE / 4 then
            findEq old new (new.length + 1) (jj + ic) else jj with hj2
        have hstart_ge : i ≤ start := by
          rw [hstart]
          exact findDiff_ge old new _ i
        have hstart_lt : start < new.length := by omega
        have hjj_ge : start ≤ jj := by
          rw [hjj]
          exact findEq_ge old new _ start
        have hjj_le : jj ≤ new.length := by
          rw [hjj]
          exact findEq_le old new _ start (by omega)
        have hic_le : ic ≤ new.length - jj := by
          rw [hic]
          calc countIdentical old new jj lookahead ≤ lookahead :=
              countIdentical_le old new lookahead jj
            _ ≤ new.length - jj := by
              rw [hla]
              exact Nat.min_le_right _ _
        have hj2_ge : start ≤ j2 := by
          rw [hj2]
          split
          · refine Nat.le_trans ?_ (findEq_ge old new (new.length + 1) (jj + ic))
            omega
          · exact hjj_ge
        have hj2_le : j2 ≤ new.length := by
          rw [hj2]
          split
          · exact findEq_le old new _ (jj + ic) (by omega)
          · exact hjj_le
        split at h
        · exact absurd h (by simp)
        · rename_i hthr
          match hrec : deltaLoop old new thr fuel j2 (total + (j2 - start) + 8) with
          | none =>
            rw [hrec] at h
            exact absurd h (by simp)
          | some ds2 =>
            rw [hrec] at h
            obtain rfl : (⟨start, slice new start j2⟩ : DeltaChunk) :: ds2 = ds :=
              Option.some.inj h
            have hslen : (slice new start j2).length = j2 - start :=
              slice_length hj2_ge hj2_le
            refine ⟨hstart_ge, ?_, ?_, ?_, ?_⟩
            · show start + (slice new start j2).length ≤ new.length
              rw [hslen]
              omega
            · intro j hij hjs
              exact findDiff_eq old new (new.length + 1) i j hij (hstart ▸ hjs)
            · intro k hk
              rw [hslen] at hk
              exact slice_getD hk
            · show ChunksFrom old new (start + (slice new start j2).length) ds2
              rw [hslen]
              have he : start + (j2 - start) = j2 := by omega
              rw [he]
              exact ih j2 (total + (j2 - start) + 8) ds2 hrec

theorem writeChunk_length {base : List Nat} {c : DeltaChunk}
    (h : c.offset + c.data.length ≤ base.length) :
    (writeChunk base c).length = base.length := by
  unfold writeChunk
  rw [List.length_append, List.length_append, List.length_take, List.length_drop]
  omega

theorem writeChunk_getD {base : List Nat} {c : DeltaChunk}
    (h : c.offset + c.data.length ≤ base.length) (j : Nat) :
    (writeChunk base c).getD j 0 =
      if j < c.offset then base.getD j 0
      else if j < c.offset + c.data.length then c.data.getD (j - c.offset) 0
      else base.getD j 0 := by
  unfold writeChunk
  rw [List.append_assoc]
  have hto : (base.take c.offset).length = c.offset := by
    rw [List.length_take]
    omega
  by_cases h1 : j < c.offset
  · rw [if_pos h1, List.getD_eq_getElem?_getD,
      List.getElem?_append_left (by omega), List.getElem?_take_of_lt h1,
      List.getD_eq_getElem?_getD]
  · rw [if_neg h1, List.getD_eq_getElem?_getD,
      List.getElem?_append_right (by omega), hto]
    by_cases h2 : j < c.offset + c.data.length
    · rw [if_pos h2, List.getElem?_append_left (by omega),
        List.getD_eq_getElem?_getD]
    · rw [if_neg h2, List.getElem?_append_right (by omega), List.getElem?_drop,
        List.getD_eq_getElem?_getD]
      congr 2
      omega

theorem ChunksFrom_bounds (old new : List Nat) :
    ∀ (ds : List DeltaChunk) (i : Nat), ChunksFrom old new i ds →
      ∀ c ∈ ds, c.offset + c.data.length ≤ new.length := by
  intro ds
  induction ds with
  | nil =>
    intro i _ c hc
    exact absurd hc (by simp)
  | cons c0 ds ih =>
    intro i h c hc
    obtain ⟨_, hb, _, _, htail⟩ := h
    rcases List.mem_cons.mp hc with rfl | hm
    · exact hb
    · exact ih _ htail c hm

theorem foldl_writeChunk_spec (old new : List Nat) :
    ∀ (ds : List DeltaChunk) (base : List Nat) (i : Nat),
      ChunksFrom old new i ds → base.length = new.length →
      (∀ j, j < i → base.getD j 0 = new.getD j 0) →
      (∀ j, i ≤ j → j < new.length → base.getD j 0 = old.getD j 0) →
      ds.foldl writeChunk base = new := by
  intro ds
  induction ds with
  | nil =>
    intro base i h hlen hlow hhigh
    simp only [List.foldl_nil]
    refine List.ext_getElem hlen ?_
    intro n h1 h2
    have hgd : base.getD n 0 = new.getD n 0 := by
      by_cases hn : n < i
      · exact hlow n hn
      · push_neg at hn
        rw [hhigh n hn (by omega)]
        exact h n hn (by omega)
    rw [← List.getD_eq_getElem base 0 h1, ← List.getD_eq_getElem new 0 h2]
    exact hgd
  | cons c ds ih =>
    intro base i h hlen hlow hhigh
    obtain ⟨hio, hb, hskip, hdata, htail⟩ := h
    have hbb : c.offset + c.data.length ≤ base.length := by
      rw [hlen]
      exact hb
    rw [List.foldl_cons]
    refine ih (writeChunk base c) (c.offset + c.data.length) htail ?_ ?_ ?_
    · rw [writeChunk_length hbb]
      exact hlen
    · intro j hj
      rw [writeChunk_getD hbb j]
      by_cases h1 : j < c.offset
      · rw [if_pos h1]
        by_cases h2 : j < i
        · exact hlow j h2
        · push_neg at h2
          rw [hhigh j h2 (by omega)]
          exact hskip j h2 h1
      · rw [if_neg h1, if_pos (by omega)]
        push_neg at h1
        rw [hdata (j - c.offset) (by omega)]
        congr 1
        omega
    · intro j hj hjl
      rw [writeChunk_getD hbb j]
      rw [if_neg (by omega), if_neg (by omega)]
      exact hhigh j (by omega) hjl

/-- C2: whenever create_delta_optimized returns a delta list rather than
falling back to Full, applying that list to the old frame with
apply_delta_safe succeeds (every chunk is in bounds) and reconstructs
exactly the new frame. -/
theorem delta_apply_roundtrip (old new : List Nat) (ds : List DeltaChunk)
    (h : create_delta_optimized old new = some ds) :
    apply_delta_safe old ds = some new := by
  unfold create_delta_optimized at h
  split at h
  · exact absurd h (by simp)
  · rename_i hlen'
    have hlen : old.length = new.length := not_ne_iff.mp hlen'
    have hcf := deltaLoop_sound old new _ (new.length + 1) 0 0 ds h
    have hbounds := ChunksFrom_bounds old new ds 0 hcf
    have hall : ds.all (fun c => c.offset + c.data.length ≤ old.length) = true := by
      simp only [List.all_eq_true, decide_eq_true_eq]
      intro c hc
      rw [hlen]
      exact hbounds c hc
    unfold apply_delta_safe
    rw [if_pos hall]
    congr 1
    exact foldl_writeChunk_spec old new ds old 0 hcf hlen
      (fun j hj => absurd hj (by omega)) (fun j _ _ => rfl)

/-- C2 witness: the theorem at the concrete 40-byte frames that differ in
their first byte, whose delta is the single chunk (offset 0, bytes [1]). -/
theorem delta_apply_roundtrip_witness :
    apply_delta_safe (List.replicate 40 0) [⟨0, [1]⟩]
      = some (1 :: List.replicate 39 0) :=
  delta_apply_roundtrip (List.replicate 40 0) (1 :: List.replicate 39 0)
    [⟨0, [1]⟩] (by decide)

/-! ## C10: short datagrams and Heartbeats leave reassembly state alone -/

/-- C10: the datagram-processing step of the client receive loop leaves
every fragment buffer and frame cache untouched, and publishes nothing,
for any datagram of at most SID_LEN + 10 bytes and for any longer
datagram whose type byte is Heartbeat; the Heartbeat the sender emits is
a single datagram of exactly SID_LEN + 10 bytes (StreamID, type byte,
4-byte sequence, 4-byte chunk id, last flag, empty body), so it never
alters any per-peer reassembly state.  (The time-driven eviction sweep,
evictExpired, runs after this step on every receive iteration and depends
only on the clock, not on the received datagram.) -/
theorem heartbeat_no_state_change :
    (∀ (st : ListenerState) (buf : List Nat) (now : Nat),
      buf.length ≤ SID_LEN + 10 → process_datagram st buf now = (st, none)) ∧
    (∀ (st : ListenerState) (buf : List Nat) (now : Nat),
      buf.getD SID_LEN 0 = 2 → process_datagram st buf now = (st, none)) ∧
    (∀ (sid : List Nat) (sequence : Nat), sid.length = SID_LEN →
      (heartbeat_packet sid sequence).length = SID_LEN + 10) ∧
    (∀ (st : ListenerState) (sid : List Nat) (sequence : Nat) (now : Nat),
      sid.length = SID_LEN →
      process_datagram st (heartbeat_packet sid sequence) now = (st, none)) := by
  have hshort : ∀ (st : ListenerState) (buf : List Nat) (now : Nat),
      buf.length ≤ SID_LEN + 10 → process_datagram st buf now = (st, none) := by
    intro st buf now hlen
    unfold process_datagram
    rw [if_neg (by omega)]
  have hlenhb : ∀ (sid : List Nat) (sequence : Nat), sid.length = SID_LEN →
      (heartbeat_packet sid sequence).length = SID_LEN + 10 := by
    intro sid sequence hsid
    unfold heartbeat_packet toBE4
    simp [hsid]
  refine ⟨hshort, ?_, hlenhb, ?_⟩
  · intro st buf now hty
    unfold process_datagram
    by_cases hlen : SID_LEN + 10 < buf.length
    · rw [if_pos hlen, hty]
      rfl
    · rw [if_neg hlen]
  · intro st sid sequence now hsid
    exact hshort st _ now (by rw [hlenhb sid sequence hsid])

/-- C10 witness: the heartbeat emitted with StreamID 1111 and sequence 5
is 14 = SID_LEN + 10 bytes and leaves a concrete nonempty reassembly
state (one pending fragment buffer, one cache) exactly unchanged. -/
theorem heartbeat_no_state_change_witness :
    ((heartbeat_packet [1, 1, 1, 1] 5).length = SID_LEN + 10) ∧
    (process_datagram
        ⟨[([2, 2, 2, 2], ⟨[(0, [7])], 3, .full, 0, 9⟩)],
         [([2, 2, 2, 2], ⟨some [7, 8], some [7, 8], 4, false⟩)]⟩
        (heartbeat_packet [1, 1, 1, 1] 5) 100
      = (⟨[([2, 2, 2, 2], ⟨[(0, [7])], 3, .full, 0, 9⟩)],
         [([2, 2, 2, 2], ⟨some [7, 8], some [7, 8], 4, false⟩)]⟩, none)) :=
  ⟨heartbeat_no_state_change.2.2.1 [1, 1, 1, 1] 5 (by decide),
   heartbeat_no_state_change.2.2.2
     ⟨[([2, 2, 2, 2], ⟨[(0, [7])], 3, .full, 0, 9⟩)],
      [([2, 2, 2, 2], ⟨some [7, 8], some [7, 8], 4, false⟩)]⟩
     [1, 1, 1, 1] 5 100 (by decide)⟩

end FacetimeV5
